import Mathlib

/-
Verification of the toy bytecode compiler and virtual machine.

The development shallowly embeds the Go sources: the opcode table and
instruction encoder (code/code.go), the object model (object package; the
CompiledFunction record itself is absent from the sources and is modelled
from the specification), the symbol tables (compiler/symbol_table.go and the
later snapshot with free-variable promotion), the AST-walking compiler
(compiler/compiler.go) and the stack virtual machine (vm/vm.go, vm/frame.go).

Machine integers are modelled as Int with explicit wrapping at 64 bits.
Go runtime panics (index out of range, division by zero, nil dereference)
are a distinct outcome from Go error returns.
-/

namespace toy

/-- Two's-complement wrap of an integer to the signed 64-bit range,
matching Go int64 arithmetic overflow behaviour. -/
def wrap64 (n : Int) : Int := (n + 2 ^ 63) % 2 ^ 64 - 2 ^ 63

/-- Outcome of running a piece of Go code: a normal result, a Go `error`
return value, or a Go runtime panic (process crash). -/
inductive Res (α : Type) where
  | ok (value : α)
  | err (msg : String)
  | crash (msg : String)

def Res.bind {α β : Type} : Res α → (α → Res β) → Res β
  | .ok a, f => f a
  | .err m, _ => .err m
  | .crash m, _ => .crash m

namespace code

def OpConstant : Nat := 0
def OpPop : Nat := 1
def OpAdd : Nat := 2
def OpSub : Nat := 3
def OpMul : Nat := 4
def OpDiv : Nat := 5
def OpTrue : Nat := 6
def OpFalse : Nat := 7
def OpNull : Nat := 8
def OpEqual : Nat := 9
def OpNotEqual : Nat := 10
def OpGreaterThan : Nat := 11
def OpMinus : Nat := 12
def OpBang : Nat := 13
def OpJumpNotTruthy : Nat := 14
def OpJump : Nat := 15
def OpGetGlobal : Nat := 16
def OpSetGlobal : Nat := 17
def OpArray : Nat := 18
def OpHash : Nat := 19
def OpIndex : Nat := 20
def OpCall : Nat := 21
def OpReturnValue : Nat := 22
def OpReturn : Nat := 23
def OpGetLocal : Nat := 24
def OpSetLocal : Nat := 25
def OpGetBuiltin : Nat := 26
def OpClosure : Nat := 27
def OpGetFree : Nat := 28
def OpCurrentClosure : Nat := 29

/-- Operand widths of each opcode, from the `definitions` map in code.go.
`none` models an opcode absent from the map. -/
def operandWidths (op : Nat) : Option (List Nat) :=
  if op = OpConstant then some [2]
  else if op = OpPop then some []
  else if op = OpAdd then some []
  else if op = OpSub then some []
  else if op = OpMul then some []
  else if op = OpDiv then some []
  else if op = OpTrue then some []
  else if op = OpFalse then some []
  else if op = OpNull then some []
  else if op = OpEqual then some []
  else if op = OpNotEqual then some []
  else if op = OpGreaterThan then some []
  else if op = OpMinus then some []
  else if op = OpBang then some []
  else if op = OpJumpNotTruthy then some [2]
  else if op = OpJump then some [2]
  else if op = OpGetGlobal then some [2]
  else if op = OpSetGlobal then some [2]
  else if op = OpArray then some [2]
  else if op = OpHash then some [2]
  else if op = OpIndex then some []
  else if op = OpCall then some [1]
  else if op = OpReturnValue then some []
  else if op = OpReturn then some []
  else if op = OpGetLocal then some [1]
  else if op = OpSetLocal then some [1]
  else if op = OpGetBuiltin then some [1]
  else if op = OpClosure then some [2, 1]
  else if op = OpGetFree then some [1]
  else if op = OpCurrentClosure then some []
  else none

/-- Encode one operand at the given byte width: big-endian uint16 for
width 2, a single byte for width 1 (both truncating as Go conversions do);
any other width leaves the zero-initialised bytes untouched. -/
def enc (width : Nat) (operand : Int) : List Nat :=
  if width = 2 then [((operand % 65536) / 256).toNat, (operand % 256).toNat]
  else if width = 1 then [(operand % 256).toNat]
  else List.replicate width 0

/-- Fill the operand region of an instruction. Go's Make allocates a
zero-filled buffer of the full instruction length and then writes only the
operands actually supplied, so missing operands keep their zero bytes. -/
def fill (widths : List Nat) (operands : List Int) : List Nat :=
  match widths, operands with
  | [], _ => []
  | w :: ws, [] => List.replicate w 0 ++ fill ws []
  | w :: ws, o :: os => enc w o ++ fill ws os

/-- code.Make: encode an opcode and its operands into bytes. An opcode
missing from the definitions map yields the empty byte string. -/
def Make (op : Nat) (operands : List Int) : List Nat :=
  match operandWidths op with
  | none => []
  | some widths => op :: fill widths operands

/-- In-place overwrite of a byte region, mirroring the loop in
replaceInstruction (all uses in the sources stay in bounds). -/
def replaceBytes (l : List Nat) (pos : Nat) : List Nat → List Nat
  | [] => l
  | b :: bs => replaceBytes (l.set pos b) (pos + 1) bs

end code

/-- Modelled from the spec: the CompiledFunction record of the object
package is not present in the sources (only its construction sites and
uses are); section 3.1 gives it as instructions plus num_locals and
num_parameters. -/
structure CompiledFn where
  Instructions : List Nat
  NumLocals : Nat
  NumParameters : Nat

/-- A hash key is the pair of an object type tag and a 64-bit payload. -/
abbrev HashKey := String × Nat

/-- Runtime objects. `goNil` models the Go zero value of the Object
interface sitting in never-written stack or globals slots. -/
inductive Obj where
  | integer (value : Int)
  | boolean (value : Bool)
  | null
  | strObj (value : String)
  | arr (elements : List Obj)
  | hashObj (pairs : List (HashKey × Obj × Obj))
  | compiledFunction (fn : CompiledFn)
  | goNil

/-- Object.Type(). Calling the method on a nil interface value is a Go
runtime panic. The COMPILED_FUNCTION tag is modelled from the spec along
with the record itself. -/
def typeOf : Obj → Res String
  | Obj.integer _ => .ok "INTEGER"
  | Obj.boolean _ => .ok "BOOLEAN"
  | Obj.null => .ok "NULL"
  | Obj.strObj _ => .ok "STRING"
  | Obj.arr _ => .ok "ARRAY"
  | Obj.hashObj _ => .ok "HASH"
  | Obj.compiledFunction _ => .ok "COMPILED_FUNCTION"
  | Obj.goNil => .crash "nil pointer dereference"

/-- 64-bit FNV-1a over a byte sequence, as hash/fnv's New64a. -/
def fnv1a64 (bytes : List Nat) : Nat :=
  bytes.foldl (fun h b => ((h ^^^ b) * 1099511628211) % 2 ^ 64) 14695981039346656037

/-- HashKey() of the Hashable objects; `none` for objects that do not
implement Hashable. The integer payload is the uint64 two's-complement
cast of the int64 value. -/
def hashKeyOf : Obj → Option HashKey
  | Obj.integer v => some ("INTEGER", (v % 2 ^ 64).toNat)
  | Obj.boolean b => some ("BOOLEAN", if b then 1 else 0)
  | Obj.strObj s => some ("STRING", fnv1a64 (s.toUTF8.toList.map UInt8.toNat))
  | _ => none

structure Symbol where
  Name : String
  Scope : String
  Index : Nat
deriving DecidableEq

def GlobalScope : String := "GLOBAL"
def BuiltinScope : String := "BUILTIN"
def LocalScope : String := "LOCAL"
def FreeScope : String := "FREE"
def FunctionScope : String := "FUNCTION"

/-- Go map store of a symbol table: insert at the front, look up the most
recent binding (assignment to an existing key shadows it). -/
def lookupStore (l : List (String × Symbol)) (name : String) : Option Symbol :=
  match l with
  | [] => none
  | (k, v) :: rest => if k = name then some v else lookupStore rest name

namespace sym

/-- The symbol table snapshot used by the compiler: a store, a definition
counter and an optional outer table (scopes GLOBAL, BUILTIN, LOCAL). -/
inductive SymbolTable where
  | mk (store : List (String × Symbol)) (numDefinitions : Nat)
       (Outer : Option SymbolTable)

def store : SymbolTable → List (String × Symbol)
  | .mk s _ _ => s

def numDefinitions : SymbolTable → Nat
  | .mk _ n _ => n

def Outer : SymbolTable → Option SymbolTable
  | .mk _ _ o => o

def NewSymbolTable : SymbolTable := .mk [] 0 none

def NewEnclosedSymbolTable (outer : SymbolTable) : SymbolTable :=
  .mk [] 0 (some outer)

def Define (s : SymbolTable) (name : String) : Symbol × SymbolTable :=
  match s with
  | .mk st n outer =>
    let scope := match outer with
      | none => GlobalScope
      | some _ => LocalScope
    let symbol : Symbol := ⟨name, scope, n⟩
    (symbol, .mk ((name, symbol) :: st) (n + 1) outer)

def DefineBuiltin (s : SymbolTable) (index : Nat) (name : String) :
    Symbol × SymbolTable :=
  match s with
  | .mk st n outer =>
    let symbol : Symbol := ⟨name, BuiltinScope, index⟩
    (symbol, .mk ((name, symbol) :: st) n outer)

def Resolve : SymbolTable → String → Option Symbol
  | .mk st _ outer, name =>
    match lookupStore st name with
    | some v => some v
    | none =>
      match outer with
      | some o => Resolve o name
      | none => none

end sym

namespace freesym

/-- The later symbol-table snapshot with free-variable promotion: it adds
the FreeSymbols list and the FREE and FUNCTION scopes. -/
inductive SymbolTable where
  | mk (store : List (String × Symbol)) (numDefinitions : Nat)
       (Outer : Option SymbolTable) (FreeSymbols : List Symbol)

def store : SymbolTable → List (String × Symbol)
  | .mk s _ _ _ => s

def numDefinitions : SymbolTable → Nat
  | .mk _ n _ _ => n

def Outer : SymbolTable → Option SymbolTable
  | .mk _ _ o _ => o

def FreeSymbols : SymbolTable → List Symbol
  | .mk _ _ _ f => f

def NewSymbolTable : SymbolTable := .mk [] 0 none []

def NewEnclosedSymbolTable (outer : SymbolTable) : SymbolTable :=
  .mk [] 0 (some outer) []

def Define (s : SymbolTable) (name : String) : Symbol × SymbolTable :=
  match s with
  | .mk st n outer free =>
    let scope := match outer with
      | none => GlobalScope
      | some _ => LocalScope
    let symbol : Symbol := ⟨name, scope, n⟩
    (symbol, .mk ((name, symbol) :: st) (n + 1) outer free)

def DefineBuiltin (s : SymbolTable) (index : Nat) (name : String) :
    Symbol × SymbolTable :=
  match s with
  | .mk st n outer free =>
    let symbol : Symbol := ⟨name, BuiltinScope, index⟩
    (symbol, .mk ((name, symbol) :: st) n outer free)

def DefineFunctionName (s : SymbolTable) (name : String) :
    Symbol × SymbolTable :=
  match s with
  | .mk st n outer free =>
    let symbol : Symbol := ⟨name, FunctionScope, 0⟩
    (symbol, .mk ((name, symbol) :: st) n outer free)

/-- defineFree: append the original outer symbol to FreeSymbols and insert
a shadowing FREE-scoped symbol into the local store. -/
def defineFree (s : SymbolTable) (original : Symbol) :
    Symbol × SymbolTable :=
  match s with
  | .mk st n outer free =>
    let free2 := free ++ [original]
    let symbol : Symbol := ⟨original.Name, FreeScope, free2.length - 1⟩
    (symbol, .mk ((original.Name, symbol) :: st) n outer free2)

/-- The tail of Resolve after the outer chain has been consulted: record
the possibly mutated outer table, pass Global/Builtin results through and
promote everything else to a free variable. -/
def resolveOuter (st : List (String × Symbol)) (n : Nat)
    (free : List Symbol) (r : Option Symbol × SymbolTable) :
    Option Symbol × SymbolTable :=
  let s2 : SymbolTable := .mk st n (some r.2) free
  match r.1 with
  | none => (none, s2)
  | some obj =>
    if obj.Scope = GlobalScope ∨ obj.Scope = BuiltinScope then
      (some obj, s2)
    else
      let f := defineFree s2 obj
      (some f.1, f.2)

/-- Resolve with free-variable promotion. The recursive resolution may
mutate every table along the chain, so the updated table is returned
alongside the result. The two shapes of the Outer field are split at the
pattern level; both first consult the local store as the source does. -/
def Resolve : SymbolTable → String → Option Symbol × SymbolTable
  | .mk st n none free, name =>
    match lookupStore st name with
    | some v => (some v, .mk st n none free)
    | none => (none, .mk st n none free)
  | .mk st n (some o) free, name =>
    match lookupStore st name with
    | some v => (some v, .mk st n (some o) free)
    | none => resolveOuter st n free (Resolve o name)

end freesym

/-- Modelled from the spec: the ast package is not under src (the parser is
an external collaborator); these are the AST shapes of section 3 that the
compiler's type switch consumes. Call arguments and function parameters are
carried because the parser produces them, even though this compiler
snapshot does not look at them. -/
inductive Ast where
  | program (statements : List Ast)
  | blockStmt (statements : List Ast)
  | exprStmt (expression : Ast)
  | letStmt (name : String) (value : Ast)
  | returnStmt (returnValue : Ast)
  | ifExpr (condition : Ast) (consequence : Ast) (alternative : Option Ast)
  | fnLit (parameters : List String) (body : Ast)
  | callExpr (function : Ast) (arguments : List Ast)
  | infixExpr (operator : String) (left : Ast) (right : Ast)
  | prefixExpr (operator : String) (right : Ast)
  | identExpr (value : String)
  | intLit (value : Int)
  | boolLit (value : Bool)
  | strLit (value : String)
  | arrayLit (elements : List Ast)
  | hashLit (pairs : List (Ast × Ast))
  | indexExpr (left : Ast) (index : Ast)

def joinSep (sep : String) : List String → String
  | [] => ""
  | [x] => x
  | x :: rest => x ++ sep ++ joinSep sep rest

mutual

/-- Modelled from the spec: the String() rendering of AST nodes (the ast
package is not under src). It is consulted only to order hash-literal keys
deterministically. -/
def astString : Ast → String
  | .program stmts => joinSep "" (astStringList stmts)
  | .blockStmt stmts => joinSep "" (astStringList stmts)
  | .exprStmt e => astString e
  | .letStmt name value => "let " ++ name ++ " = " ++ astString value ++ ";"
  | .returnStmt v => "return " ++ astString v ++ ";"
  | .ifExpr c cons alt =>
    let base := "if" ++ astString c ++ " " ++ astString cons
    match alt with
    | none => base
    | some a => base ++ "else " ++ astString a
  | .fnLit params body =>
    "fn" ++ "(" ++ joinSep ", " params ++ ") " ++ astString body
  | .callExpr f args =>
    astString f ++ "(" ++ joinSep ", " (astStringList args) ++ ")"
  | .infixExpr op l r =>
    "(" ++ astString l ++ " " ++ op ++ " " ++ astString r ++ ")"
  | .prefixExpr op r => "(" ++ op ++ astString r ++ ")"
  | .identExpr v => v
  | .intLit v => toString v
  | .boolLit v => if v then "true" else "false"
  | .strLit v => v
  | .arrayLit elems => "[" ++ joinSep ", " (astStringList elems) ++ "]"
  | .hashLit pairs => "\x7b" ++ joinSep ", " (astStringPairs pairs) ++ "\x7d"
  | .indexExpr l i => "(" ++ astString l ++ "[" ++ astString i ++ "])"

def astStringList : List Ast → List String
  | [] => []
  | a :: rest => astString a :: astStringList rest

def astStringPairs : List (Ast × Ast) → List String
  | [] => []
  | (k, v) :: rest => (astString k ++ ":" ++ astString v) :: astStringPairs rest

end

/-- Insertion step of the key sort for hash literals. -/
def insertByKey (x : Ast × Ast) : List (Ast × Ast) → List (Ast × Ast)
  | [] => [x]
  | y :: rest =>
    if astString x.1 < astString y.1 then x :: y :: rest
    else y :: insertByKey x rest

/-- Sort hash-literal pairs by the stringified key, as the compiler's
sort.Slice call over the collected keys. -/
def sortPairs : List (Ast × Ast) → List (Ast × Ast)
  | [] => []
  | x :: rest => insertByKey x (sortPairs rest)

structure EmittedInstruction where
  Opcode : Nat
  Position : Nat
deriving DecidableEq

structure CompilationScope where
  instructions : List Nat
  lastInstruction : EmittedInstruction
  previousInstruction : EmittedInstruction
deriving DecidableEq

structure Compiler where
  constants : List Obj
  symbolTable : sym.SymbolTable
  scopes : List CompilationScope
  scopeIndex : Nat

/-- The zero value of a CompilationScope (Go's EmittedInstruction zero
value has opcode 0 and position 0). -/
def emptyScope : CompilationScope := ⟨[], ⟨0, 0⟩, ⟨0, 0⟩⟩

def Compiler.New : Compiler :=
  ⟨[], sym.NewSymbolTable, [emptyScope], 0⟩

def currentScope (c : Compiler) : CompilationScope :=
  c.scopes.getD c.scopeIndex emptyScope

def currentInstructions (c : Compiler) : List Nat :=
  (currentScope c).instructions

def setCurrentScope (c : Compiler) (s : CompilationScope) : Compiler :=
  { c with scopes := c.scopes.set c.scopeIndex s }

def addConstant (c : Compiler) (o : Obj) : Nat × Compiler :=
  (c.constants.length, { c with constants := c.constants ++ [o] })

def addInstruction (c : Compiler) (ins : List Nat) : Nat × Compiler :=
  let pos := (currentInstructions c).length
  (pos, setCurrentScope c
    { currentScope c with instructions := currentInstructions c ++ ins })

def setLastInstruction (c : Compiler) (op : Nat) (pos : Nat) : Compiler :=
  let scope := currentScope c
  setCurrentScope c
    { scope with previousInstruction := scope.lastInstruction,
                 lastInstruction := ⟨op, pos⟩ }

def emit (c : Compiler) (op : Nat) (operands : List Int) : Nat × Compiler :=
  let ins := code.Make op operands
  let r := addInstruction c ins
  (r.1, setLastInstruction r.2 op r.1)

def lastInstructionIs (c : Compiler) (op : Nat) : Bool :=
  if (currentInstructions c).length = 0 then false
  else (currentScope c).lastInstruction.Opcode = op

def lastInstructionIsPop (c : Compiler) : Bool :=
  lastInstructionIs c code.OpPop

def removeLastPop (c : Compiler) : Compiler :=
  let scope := currentScope c
  setCurrentScope c
    { scope with
        instructions := scope.instructions.take scope.lastInstruction.Position,
        lastInstruction := scope.previousInstruction }

def replaceInstruction (c : Compiler) (pos : Nat) (newIns : List Nat) :
    Compiler :=
  setCurrentScope c
    { currentScope c with
        instructions := code.replaceBytes (currentInstructions c) pos newIns }

/-- changeOperand re-encodes the instruction at opPos with the single new
operand and overwrites it in place (all uses read a position that is in
bounds, where Go would otherwise panic). -/
def changeOperand (c : Compiler) (opPos : Nat) (operand : Int) : Compiler :=
  let op := (currentInstructions c).getD opPos 0
  replaceInstruction c opPos (code.Make op [operand])

def replaceLastPopWithReturn (c : Compiler) : Compiler :=
  let lastPos := (currentScope c).lastInstruction.Position
  let c1 := replaceInstruction c lastPos (code.Make code.OpReturnValue [])
  let scope := currentScope c1
  setCurrentScope c1
    { scope with
        lastInstruction := { scope.lastInstruction with
                               Opcode := code.OpReturnValue } }

def enterScope (c : Compiler) : Compiler :=
  { c with scopes := c.scopes ++ [emptyScope],
           scopeIndex := c.scopeIndex + 1,
           symbolTable := sym.NewEnclosedSymbolTable c.symbolTable }

/-- leaveScope pops the compilation scope and restores the outer symbol
table (Go would leave a nil table when Outer is nil; enter and leave are
always paired so that case is unreachable and a fresh table stands in). -/
def leaveScope (c : Compiler) : List Nat × Compiler :=
  let instructions := currentInstructions c
  (instructions,
   { c with scopes := c.scopes.take (c.scopes.length - 1),
            scopeIndex := c.scopeIndex - 1,
            symbolTable := (sym.Outer c.symbolTable).getD sym.NewSymbolTable })

/-! The arm bodies of the compiler's type switch that run after the
recursive sub-compilations are split into standalone tail functions, so
that the recursive definition itself stays small. -/

/-- Tail of the if-expression case when there is no alternative: strip a
trailing OpPop from the consequence, emit the placeholder OpJump and the
OpNull alternative, then patch both jump operands. -/
def ifNoneTail (jumpNotTruthyPos : Nat) (c2 : Compiler) : Compiler :=
  let c3 := if lastInstructionIsPop c2 then removeLastPop c2 else c2
  let r2 := emit c3 code.OpJump [0]
  let jumpPos := r2.1
  let c4 := r2.2
  let alternativePos := (currentInstructions c4).length
  let c5 := (emit c4 code.OpNull []).2
  let afterAlternativePos := (currentInstructions c5).length
  let c6 := changeOperand c5 jumpNotTruthyPos (alternativePos : Int)
  changeOperand c6 jumpPos (afterAlternativePos : Int)

/-- Tail of the if-expression case with an alternative, after the
alternative too has been compiled (at the state just after the placeholder
OpJump, whose end is the recorded alternative start). -/
def ifSomeTail (jumpNotTruthyPos jumpPos alternativePos : Nat)
    (c5 : Compiler) : Compiler :=
  let c6 := if lastInstructionIsPop c5 then removeLastPop c5 else c5
  let afterAlternativePos := (currentInstructions c6).length
  let c7 := changeOperand c6 jumpNotTruthyPos (alternativePos : Int)
  changeOperand c7 jumpPos (afterAlternativePos : Int)

/-- Tail of the function-literal case after the body is compiled: install
the implicit return, snapshot locals, leave the scope, and emit the
OpConstant that loads the new CompiledFunction. -/
def fnTail (c2 : Compiler) : Compiler :=
  let c3 := if lastInstructionIsPop c2 then replaceLastPopWithReturn c2
            else c2
  let c4 := if lastInstructionIs c3 code.OpReturnValue then c3
            else (emit c3 code.OpReturn []).2
  let numLocals := sym.numDefinitions c4.symbolTable
  let r := leaveScope c4
  let compiledFn : CompiledFn := ⟨r.1, numLocals, 0⟩
  let r2 := addConstant r.2 (Obj.compiledFunction compiledFn)
  (emit r2.2 code.OpConstant [(r2.1 : Int)]).2

/-- Tail of the let-statement case: define the name (after the value has
been compiled) and emit the store instruction for its scope. -/
def letTail (name : String) (c1 : Compiler) : Compiler :=
  let r := sym.Define c1.symbolTable name
  let symbol := r.1
  let c2 := { c1 with symbolTable := r.2 }
  if symbol.Scope = GlobalScope then
    (emit c2 code.OpSetGlobal [(symbol.Index : Int)]).2
  else
    (emit c2 code.OpSetLocal [(symbol.Index : Int)]).2

/-- Operator dispatch tail of the infix case (after the "<" swap, so "<"
never reaches it from the compiler). -/
def infixTail (operator0 : String) (c2 : Compiler) :
    Except String Compiler :=
  if operator0 = "+" then .ok (emit c2 code.OpAdd []).2
  else if operator0 = "-" then .ok (emit c2 code.OpSub []).2
  else if operator0 = "*" then .ok (emit c2 code.OpMul []).2
  else if operator0 = "/" then .ok (emit c2 code.OpDiv []).2
  else if operator0 = "==" then .ok (emit c2 code.OpEqual []).2
  else if operator0 = "!=" then .ok (emit c2 code.OpNotEqual []).2
  else if operator0 = ">" then .ok (emit c2 code.OpGreaterThan []).2
  else .error ("unknown operator " ++ operator0)

/-- The identifier case: resolve and emit the load for the symbol's
scope. -/
def identArm (name : String) (c : Compiler) : Except String Compiler :=
  match sym.Resolve c.symbolTable name with
  | none => .error ("undefined variable " ++ name)
  | some symbol =>
    if symbol.Scope = GlobalScope then
      .ok (emit c code.OpGetGlobal [(symbol.Index : Int)]).2
    else
      .ok (emit c code.OpGetLocal [(symbol.Index : Int)]).2

mutual

/-- The compiler's type switch on AST nodes (Compile in compiler.go).
The if-expression case is split on the presence of the alternative, and
for "<" the infix case swaps the operands and compiles as ">", spelled as
two branches so each recursive call is on a direct subterm. -/
def Compile : Ast → Compiler → Except String Compiler
  | .program stmts, c => compileList stmts c
  | .blockStmt stmts, c => compileList stmts c
  | .exprStmt e, c =>
    match Compile e c with
    | .error msg => .error msg
    | .ok c1 => .ok (emit c1 code.OpPop []).2
  | .ifExpr cond cons none, c =>
    match Compile cond c with
    | .error msg => .error msg
    | .ok c1 =>
      let r1 := emit c1 code.OpJumpNotTruthy [0]
      match Compile cons r1.2 with
      | .error msg => .error msg
      | .ok c2 => .ok (ifNoneTail r1.1 c2)
  | .ifExpr cond cons (some altNode), c =>
    match Compile cond c with
    | .error msg => .error msg
    | .ok c1 =>
      let r1 := emit c1 code.OpJumpNotTruthy [0]
      match Compile cons r1.2 with
      | .error msg => .error msg
      | .ok c2 =>
        let c3 := if lastInstructionIsPop c2 then removeLastPop c2 else c2
        let r2 := emit c3 code.OpJump [0]
        match Compile altNode r2.2 with
        | .error msg => .error msg
        | .ok c5 =>
          .ok (ifSomeTail r1.1 r2.1 (currentInstructions r2.2).length c5)
  | .fnLit _params body, c =>
    match Compile body (enterScope c) with
    | .error msg => .error msg
    | .ok c2 => .ok (fnTail c2)
  | .returnStmt v, c =>
    match Compile v c with
    | .error msg => .error msg
    | .ok c1 => .ok (emit c1 code.OpReturnValue []).2
  | .callExpr f _args, c =>
    match Compile f c with
    | .error msg => .error msg
    | .ok c1 => .ok (emit c1 code.OpCall []).2
  | .letStmt name value, c =>
    match Compile value c with
    | .error msg => .error msg
    | .ok c1 => .ok (letTail name c1)
  | .infixExpr operator0 left0 right0, c =>
    if operator0 = "<" then
      match Compile right0 c with
      | .error msg => .error msg
      | .ok c1 =>
        match Compile left0 c1 with
        | .error msg => .error msg
        | .ok c2 => .ok (emit c2 code.OpGreaterThan []).2
    else
      match Compile left0 c with
      | .error msg => .error msg
      | .ok c1 =>
        match Compile right0 c1 with
        | .error msg => .error msg
        | .ok c2 => infixTail operator0 c2
  | .prefixExpr operator value, c =>
    match Compile value c with
    | .error msg => .error msg
    | .ok c1 =>
      if operator = "-" then .ok (emit c1 code.OpMinus []).2
      else if operator = "!" then .ok (emit c1 code.OpBang []).2
      else .error ("unknown operator " ++ operator)
  | .arrayLit elems, c =>
    match compileList elems c with
    | .error msg => .error msg
    | .ok c1 => .ok (emit c1 code.OpArray [(elems.length : Int)]).2
  | .hashLit pairs, c =>
    -- the Go node holds the pairs in an unordered map and the compiler
    -- sorts the keys by their stringified form before compiling; the
    -- embedding carries the pairs of the map in that sorted order already,
    -- so they are compiled as carried
    match compilePairs pairs c with
    | .error msg => .error msg
    | .ok c1 => .ok (emit c1 code.OpHash [(pairs.length * 2 : Int)]).2
  | .indexExpr l i, c =>
    match Compile l c with
    | .error msg => .error msg
    | .ok c1 =>
      match Compile i c1 with
      | .error msg => .error msg
      | .ok c2 => .ok (emit c2 code.OpIndex []).2
  | .identExpr name, c => identArm name c
  | .intLit v, c =>
    let r := addConstant c (Obj.integer v)
    .ok (emit r.2 code.OpConstant [(r.1 : Int)]).2
  | .boolLit v, c =>
    if v then .ok (emit c code.OpTrue []).2
    else .ok (emit c code.OpFalse []).2
  | .strLit v, c =>
    let r := addConstant c (Obj.strObj v)
    .ok (emit r.2 code.OpConstant [(r.1 : Int)]).2

def compileList : List Ast → Compiler → Except String Compiler
  | [], c => .ok c
  | s :: rest, c =>
    match Compile s c with
    | .error msg => .error msg
    | .ok c1 => compileList rest c1

def compilePairs : List (Ast × Ast) → Compiler → Except String Compiler
  | [], c => .ok c
  | (k, v) :: rest, c =>
    match Compile k c with
    | .error msg => .error msg
    | .ok c1 =>
      match Compile v c1 with
      | .error msg => .error msg
      | .ok c2 => compilePairs rest c2

end

structure Bytecode where
  Instructions : List Nat
  Constants : List Obj

def BytecodeOf (c : Compiler) : Bytecode :=
  ⟨currentInstructions c, c.constants⟩

def StackSize : Nat := 2048
def GlobalsSize : Nat := 65536
def MaxFrames : Nat := 1024

/-- A call frame: the callee, an instruction pointer starting at -1, and
the base pointer into the operand stack (vm/frame.go). -/
structure Frame where
  fn : CompiledFn
  ip : Int
  basePointer : Int

def NewFrame (fn : CompiledFn) (basePointer : Int) : Frame :=
  ⟨fn, -1, basePointer⟩

/-- VM state. The fixed arrays (stack of 2048 Objects, globals of 65536,
frames of 1024 pointers) are modelled as index functions; unwritten Object
slots hold the Go zero value `goNil` and unwritten frame slots hold the Go
nil pointer `none`. -/
structure VM where
  constants : List Obj
  stack : Nat → Obj
  sp : Int
  globals : Nat → Obj
  frames : Nat → Option Frame
  frameIndex : Int

def VMNew (bytecode : Bytecode) : VM :=
  let mainFn : CompiledFn := ⟨bytecode.Instructions, 0, 0⟩
  let mainFrame := NewFrame mainFn 0
  { constants := bytecode.Constants
    stack := fun _ => Obj.goNil
    sp := 0
    globals := fun _ => Obj.goNil
    frames := fun i => if i = 0 then some mainFrame else none
    frameIndex := 1 }

def readStack (vm : VM) (i : Int) : Res Obj :=
  if 0 ≤ i ∧ i < (StackSize : Int) then .ok (vm.stack i.toNat)
  else .crash "index out of range"

def writeStack (vm : VM) (i : Int) (o : Obj) : Res VM :=
  if 0 ≤ i ∧ i < (StackSize : Int) then
    .ok { vm with stack := fun j => if j = i.toNat then o else vm.stack j }
  else .crash "index out of range"

def readGlobal (vm : VM) (i : Int) : Res Obj :=
  if 0 ≤ i ∧ i < (GlobalsSize : Int) then .ok (vm.globals i.toNat)
  else .crash "index out of range"

def writeGlobal (vm : VM) (i : Int) (o : Obj) : Res VM :=
  if 0 ≤ i ∧ i < (GlobalsSize : Int) then
    .ok { vm with globals := fun j => if j = i.toNat then o else vm.globals j }
  else .crash "index out of range"

/-- push: the guard against overflowing the 2048-slot operand stack is the
only bounds check the VM performs itself. -/
def push (vm : VM) (o : Obj) : Res VM :=
  if (StackSize : Int) ≤ vm.sp then .err "stack overflow"
  else
    Res.bind (writeStack vm vm.sp o) fun vm1 =>
      .ok { vm1 with sp := vm1.sp + 1 }

/-- pop reads the top slot and only decrements sp; the slot itself is not
cleared. -/
def pop (vm : VM) : Res (Obj × VM) :=
  Res.bind (readStack vm (vm.sp - 1)) fun o =>
    .ok (o, { vm with sp := vm.sp - 1 })

def LastPoppedStackElem (vm : VM) : Res Obj :=
  readStack vm vm.sp

def currentFrame (vm : VM) : Res Frame :=
  if 0 ≤ vm.frameIndex - 1 ∧ vm.frameIndex - 1 < (MaxFrames : Int) then
    match vm.frames (vm.frameIndex - 1).toNat with
    | some f => .ok f
    | none => .crash "nil pointer dereference"
  else .crash "index out of range"

def setCurrentFrame (vm : VM) (f : Frame) : VM :=
  { vm with frames := fun j =>
      if j = (vm.frameIndex - 1).toNat then some f else vm.frames j }

/-- pushFrame writes frames[frameIndex] with no bounds check of its own;
exceeding the 1024-entry array is a Go runtime panic, not a VM error. -/
def pushFrame (vm : VM) (f : Frame) : Res VM :=
  if 0 ≤ vm.frameIndex ∧ vm.frameIndex < (MaxFrames : Int) then
    .ok { vm with
            frames := fun j =>
              if j = vm.frameIndex.toNat then some f else vm.frames j,
            frameIndex := vm.frameIndex + 1 }
  else .crash "index out of range"

def popFrame (vm : VM) : Res (Frame × VM) :=
  let vm1 : VM := { vm with frameIndex := vm.frameIndex - 1 }
  if 0 ≤ vm1.frameIndex ∧ vm1.frameIndex < (MaxFrames : Int) then
    match vm1.frames vm1.frameIndex.toNat with
    | some f => .ok (f, vm1)
    | none => .crash "nil pointer dereference"
  else .crash "index out of range"

def fetchByte (ins : List Nat) (i : Int) : Res Nat :=
  if 0 ≤ i ∧ i < (ins.length : Int) then .ok (ins.getD i.toNat 0)
  else .crash "index out of range"

/-- code.ReadUint16 on the slice starting at i: two big-endian bytes. -/
def readUint16At (ins : List Nat) (i : Int) : Res Nat :=
  Res.bind (fetchByte ins i) fun b1 =>
    Res.bind (fetchByte ins (i + 1)) fun b2 =>
      .ok (b1 * 256 + b2)

def nativeBoolToBooleanObject (input : Bool) : Obj := Obj.boolean input

/-- Go == on Object interface values compares pointer identity. The
Boolean and Null objects are process-wide singletons so identity agrees
with this structural test for them (and for two nil interfaces); for other
objects (integers are dispatched to the value comparison before this is
consulted; strings, arrays, hashes, functions are heap allocations)
distinct allocations compare unequal, and shared allocations are not
modelled -- no instruction sequence in this development compares them. -/
def identityEq : Obj → Obj → Bool
  | Obj.boolean a, Obj.boolean b => a = b
  | Obj.null, Obj.null => true
  | Obj.goNil, Obj.goNil => true
  | _, _ => false

def executeBinaryIntegerOperation (vm : VM) (op : Nat) (left right : Obj) :
    Res VM :=
  match right, left with
  | Obj.integer rightValue, Obj.integer leftValue =>
    if op = code.OpAdd then
      push vm (Obj.integer (wrap64 (leftValue + rightValue)))
    else if op = code.OpSub then
      push vm (Obj.integer (wrap64 (leftValue - rightValue)))
    else if op = code.OpMul then
      push vm (Obj.integer (wrap64 (leftValue * rightValue)))
    else if op = code.OpDiv then
      if rightValue = 0 then .crash "integer divide by zero"
      else push vm (Obj.integer (wrap64 (Int.tdiv leftValue rightValue)))
    else .err ("unknown integer operator: " ++ toString op)
  | _, _ => .crash "interface conversion"

def executeBinaryStringOperation (vm : VM) (op : Nat) (left right : Obj) :
    Res VM :=
  if op ≠ code.OpAdd then .err ("unknown string operator: " ++ toString op)
  else
    match left, right with
    | Obj.strObj leftValue, Obj.strObj rightValue =>
      push vm (Obj.strObj (leftValue ++ rightValue))
    | _, _ => .crash "interface conversion"

def executeBinaryOperation (vm : VM) (op : Nat) : Res VM :=
  Res.bind (pop vm) fun pr =>
    Res.bind (pop pr.2) fun pl =>
      let right := pr.1
      let left := pl.1
      let vm2 := pl.2
      Res.bind (typeOf right) fun rightType =>
        Res.bind (typeOf left) fun leftType =>
          if leftType = "INTEGER" ∧ rightType = "INTEGER" then
            executeBinaryIntegerOperation vm2 op left right
          else if leftType = "STRING" ∧ rightType = "STRING" then
            executeBinaryStringOperation vm2 op left right
          else
            .err ("unsupported types for binary operation: " ++ leftType ++
                  " " ++ rightType)

def executeIntegerComparison (vm : VM) (op : Nat) (left right : Obj) :
    Res VM :=
  match left, right with
  | Obj.integer leftValue, Obj.integer rightValue =>
    if op = code.OpEqual then
      push vm (nativeBoolToBooleanObject (rightValue = leftValue))
    else if op = code.OpNotEqual then
      push vm (nativeBoolToBooleanObject (rightValue ≠ leftValue))
    else if op = code.OpGreaterThan then
      push vm (nativeBoolToBooleanObject (leftValue > rightValue))
    else .err ("unknown operator: " ++ toString op)
  | _, _ => .crash "interface conversion"

def executeComparison (vm : VM) (op : Nat) : Res VM :=
  Res.bind (pop vm) fun pr =>
    Res.bind (pop pr.2) fun pl =>
      let right := pr.1
      let left := pl.1
      let vm2 := pl.2
      Res.bind (typeOf left) fun leftType =>
        Res.bind (typeOf right) fun rightType =>
          if leftType = "INTEGER" ∧ rightType = "INTEGER" then
            executeIntegerComparison vm2 op left right
          else if op = code.OpEqual then
            push vm2 (nativeBoolToBooleanObject (identityEq right left))
          else if op = code.OpNotEqual then
            push vm2 (nativeBoolToBooleanObject (!identityEq right left))
          else
            .err ("unknown operator: " ++ toString op ++ " (" ++ leftType ++
                  " " ++ rightType ++ ")")

def executeBangOperator (vm : VM) : Res VM :=
  Res.bind (pop vm) fun p =>
    match p.1 with
    | Obj.boolean true => push p.2 (Obj.boolean false)
    | Obj.boolean false => push p.2 (Obj.boolean true)
    | Obj.null => push p.2 (Obj.boolean true)
    | _ => push p.2 (Obj.boolean false)

def executeMinusOperator (vm : VM) : Res VM :=
  Res.bind (pop vm) fun p =>
    Res.bind (typeOf p.1) fun t =>
      if t ≠ "INTEGER" then .err ("unsupported type for negation: " ++ t)
      else
        match p.1 with
        | Obj.integer value => push p.2 (Obj.integer (wrap64 (-value)))
        | _ => .crash "interface conversion"

def isTruthy : Obj → Bool
  | Obj.boolean b => b
  | Obj.null => false
  | _ => true

def readStackRange (vm : VM) (start : Int) : Nat → Res (List Obj)
  | 0 => .ok []
  | n + 1 =>
    Res.bind (readStack vm start) fun o =>
      Res.bind (readStackRange vm (start + 1) n) fun rest =>
        .ok (o :: rest)

def buildArray (vm : VM) (startIndex endIndex : Int) : Res Obj :=
  Res.bind (readStackRange vm startIndex (endIndex - startIndex).toNat)
    fun elements => .ok (Obj.arr elements)

/-- Go map assignment on the hash-pair table: replace an existing key,
otherwise append. -/
def upsertPair (hk : HashKey) (k v : Obj) :
    List (HashKey × Obj × Obj) → List (HashKey × Obj × Obj)
  | [] => [(hk, k, v)]
  | (hk0, p) :: rest =>
    if hk0 = hk then (hk, k, v) :: rest else (hk0, p) :: upsertPair hk k v rest

def buildHashGo (vm : VM) (i endIndex : Int) (fuel : Nat)
    (acc : List (HashKey × Obj × Obj)) : Res (List (HashKey × Obj × Obj)) :=
  if endIndex ≤ i then .ok acc
  else
    match fuel with
    | 0 => .ok acc
    | f + 1 =>
      Res.bind (readStack vm i) fun key =>
        Res.bind (readStack vm (i + 1)) fun value =>
          match hashKeyOf key with
          | some hk => buildHashGo vm (i + 2) endIndex f (upsertPair hk key value acc)
          | none =>
            Res.bind (typeOf key) fun t =>
              .err ("unusable as hash key: " ++ t)

def buildHash (vm : VM) (startIndex endIndex : Int) : Res Obj :=
  Res.bind (buildHashGo vm startIndex endIndex (endIndex - startIndex).toNat [])
    fun pairs => .ok (Obj.hashObj pairs)

def executeArrayIndex (vm : VM) (array index : Obj) : Res VM :=
  match array, index with
  | Obj.arr elements, Obj.integer i =>
    let maxIndex : Int := (elements.length : Int) - 1
    if i < 0 ∨ i > maxIndex then push vm Obj.null
    else push vm (elements.getD i.toNat Obj.goNil)
  | _, _ => .crash "interface conversion"

def lookupPair (hk : HashKey) : List (HashKey × Obj × Obj) → Option (Obj × Obj)
  | [] => none
  | (hk0, p) :: rest => if hk0 = hk then some p else lookupPair hk rest

def executeHashIndex (vm : VM) (hash index : Obj) : Res VM :=
  match hash with
  | Obj.hashObj pairs =>
    match hashKeyOf index with
    | none =>
      Res.bind (typeOf index) fun t => .err ("unusable as hash key: " ++ t)
    | some hk =>
      match lookupPair hk pairs with
      | none => push vm Obj.null
      | some p => push vm p.2
  | _ => .crash "interface conversion"

def executeIndexExpression (vm : VM) (left index : Obj) : Res VM :=
  Res.bind (typeOf left) fun leftType =>
    Res.bind (typeOf index) fun indexType =>
      if leftType = "ARRAY" ∧ indexType = "INTEGER" then
        executeArrayIndex vm left index
      else if leftType = "HASH" then
        executeHashIndex vm left index
      else .err ("index operator not supported: " ++ leftType)

/-- callFunction: the callee sits numArgs+1 slots below the stack pointer;
a non-CompiledFunction callee is a VM error, as is an argument count that
differs from the declared parameter count; otherwise a frame is pushed and
sp is moved past the reserved local slots. -/
def callFunction (vm : VM) (numArgs : Nat) : Res VM :=
  Res.bind (readStack vm (vm.sp - numArgs - 1)) fun callee =>
    match callee with
    | Obj.compiledFunction fn =>
      if numArgs ≠ fn.NumParameters then
        .err ("wrong number of arguments, expected " ++
              toString fn.NumParameters ++ ", actual " ++ toString numArgs)
      else
        let frame := NewFrame fn (vm.sp - numArgs)
        Res.bind (pushFrame vm frame) fun vm1 =>
          .ok { vm1 with sp := frame.basePointer + (fn.NumLocals : Int) }
    | _ => .err "calling non-function"

/-- The decode-dispatch switch of Run, after ip has been pre-incremented
(giving the updated frame f1) and the opcode fetched. Opcodes without a
case in the switch (OpGetBuiltin, OpClosure, OpGetFree, OpCurrentClosure)
fall through and do nothing. -/
def stepOp (vm : VM) (f1 : Frame) (ins : List Nat) (ip : Int) (op : Nat) :
    Res VM :=
      if op = code.OpConstant then
        Res.bind (readUint16At ins (ip + 1)) fun constIndex =>
          let vm1 := setCurrentFrame vm { f1 with ip := f1.ip + 2 }
          if constIndex < vm1.constants.length then
            push vm1 (vm1.constants.getD constIndex Obj.goNil)
          else .crash "index out of range"
      else if op = code.OpPop then
        Res.bind (pop vm) fun p => .ok p.2
      else if op = code.OpJumpNotTruthy then
        Res.bind (readUint16At ins (ip + 1)) fun pos =>
          let vm1 := setCurrentFrame vm { f1 with ip := f1.ip + 2 }
          Res.bind (pop vm1) fun p =>
            if !isTruthy p.1 then
              .ok (setCurrentFrame p.2 { f1 with ip := (pos : Int) - 1 })
            else .ok p.2
      else if op = code.OpJump then
        Res.bind (readUint16At ins (ip + 1)) fun pos =>
          .ok (setCurrentFrame vm { f1 with ip := (pos : Int) - 1 })
      else if op = code.OpCall then
        Res.bind (fetchByte ins (ip + 1)) fun numArgs =>
          let vm1 := setCurrentFrame vm { f1 with ip := f1.ip + 1 }
          callFunction vm1 numArgs
      else if op = code.OpReturnValue then
        Res.bind (pop vm) fun p =>
          Res.bind (popFrame p.2) fun fr =>
            let vm2 : VM := { fr.2 with sp := fr.1.basePointer - 1 }
            push vm2 p.1
      else if op = code.OpReturn then
        Res.bind (popFrame vm) fun fr =>
          Res.bind (pop fr.2) fun p =>
            push p.2 Obj.null
      else if op = code.OpSetLocal then
        Res.bind (fetchByte ins (ip + 1)) fun localIndex =>
          let vm1 := setCurrentFrame vm { f1 with ip := f1.ip + 1 }
          Res.bind (pop vm1) fun p =>
            writeStack p.2 (f1.basePointer + (localIndex : Int)) p.1
      else if op = code.OpGetLocal then
        Res.bind (fetchByte ins (ip + 1)) fun localIndex =>
          let vm1 := setCurrentFrame vm { f1 with ip := f1.ip + 1 }
          Res.bind (readStack vm1 (f1.basePointer + (localIndex : Int)))
            fun o => push vm1 o
      else if op = code.OpAdd ∨ op = code.OpSub ∨ op = code.OpMul ∨
              op = code.OpDiv then
        executeBinaryOperation vm op
      else if op = code.OpEqual ∨ op = code.OpNotEqual ∨
              op = code.OpGreaterThan then
        executeComparison vm op
      else if op = code.OpSetGlobal then
        Res.bind (readUint16At ins (ip + 1)) fun globalIndex =>
          let vm1 := setCurrentFrame vm { f1 with ip := f1.ip + 2 }
          Res.bind (pop vm1) fun p =>
            writeGlobal p.2 (globalIndex : Int) p.1
      else if op = code.OpGetGlobal then
        Res.bind (readUint16At ins (ip + 1)) fun globalIndex =>
          let vm1 := setCurrentFrame vm { f1 with ip := f1.ip + 2 }
          Res.bind (readGlobal vm1 (globalIndex : Int)) fun o =>
            push vm1 o
      else if op = code.OpMinus then
        executeMinusOperator vm
      else if op = code.OpBang then
        executeBangOperator vm
      else if op = code.OpArray then
        Res.bind (readUint16At ins (ip + 1)) fun count =>
          let vm1 := setCurrentFrame vm { f1 with ip := f1.ip + 2 }
          Res.bind (buildArray vm1 (vm1.sp - count) vm1.sp) fun array =>
            let vm2 : VM := { vm1 with sp := vm1.sp - count }
            push vm2 array
      else if op = code.OpHash then
        Res.bind (readUint16At ins (ip + 1)) fun count =>
          let vm1 := setCurrentFrame vm { f1 with ip := f1.ip + 2 }
          Res.bind (buildHash vm1 (vm1.sp - count) vm1.sp) fun hash =>
            let vm2 : VM := { vm1 with sp := vm1.sp - count }
            push vm2 hash
      else if op = code.OpIndex then
        Res.bind (pop vm) fun pIndex =>
          Res.bind (pop pIndex.2) fun pLeft =>
            executeIndexExpression pLeft.2 pLeft.1 pIndex.1
      else if op = code.OpTrue then
        push vm (Obj.boolean true)
      else if op = code.OpFalse then
        push vm (Obj.boolean false)
      else if op = code.OpNull then
        push vm Obj.null
      else .ok vm

/-- One iteration of the VM's fetch-decode-execute loop (the body of Run
in vm.go): pre-increment ip, fetch the opcode, dispatch. -/
def step (vm0 : VM) : Res VM :=
  Res.bind (currentFrame vm0) fun f0 =>
    let f1 : Frame := { f0 with ip := f0.ip + 1 }
    let vm := setCurrentFrame vm0 f1
    let ins := f1.fn.Instructions
    let ip := f1.ip
    Res.bind (fetchByte ins ip) fun op =>
      stepOp vm f1 ins ip op

inductive RunResult where
  | ok (vm : VM)
  | vmError (msg : String)
  | crashed (msg : String)
  | fuelOut

/-- The loop guard of Run: the current frame still has bytes left. -/
def loopCond (vm : VM) : Res Bool :=
  Res.bind (currentFrame vm) fun f =>
    .ok (decide (f.ip < (f.fn.Instructions.length : Int) - 1))

/-- Run with explicit fuel: iterate step while the loop guard holds.
A normal exit returns the final state (Go Run returns nil). -/
def run : Nat → VM → RunResult
  | 0, _ => .fuelOut
  | n + 1, vm =>
    match loopCond vm with
    | .err m => .vmError m
    | .crash m => .crashed m
    | .ok false => .ok vm
    | .ok true =>
      match step vm with
      | .ok vm1 => run n vm1
      | .err m => .vmError m
      | .crash m => .crashed m

/-- Iterate exactly n loop iterations, for observing intermediate states. -/
def stepN : Nat → VM → Res VM
  | 0, vm => .ok vm
  | n + 1, vm => Res.bind (step vm) (stepN n)

inductive RunOutcome where
  | value (v : Obj)
  | compileError (msg : String)
  | vmError (msg : String)
  | crashed (msg : String)
  | fuelOut

/-- Compile a program with a fresh compiler, run the bytecode on a fresh
VM, and inspect the last popped stack slot -- the executor/REPL flow. -/
def runProgram (fuel : Nat) (prog : Ast) : RunOutcome :=
  match Compile prog Compiler.New with
  | .error msg => .compileError msg
  | .ok c =>
    match run fuel (VMNew (BytecodeOf c)) with
    | .ok s =>
      match LastPoppedStackElem s with
      | .ok v => .value v
      | .err m => .vmError m
      | .crash m => .crashed m
    | .vmError m => .vmError m
    | .crashed m => .crashed m
    | .fuelOut => .fuelOut

/-! Compiler invariants, the VM states and the programs used by the
claims. -/

def c1vmA : VM :=
  { constants := []
    stack := fun i => if i = 0 then Obj.compiledFunction ⟨[], 0, 0⟩
             else Obj.goNil
    sp := 2
    globals := fun _ => Obj.goNil
    frames := fun _ => none
    frameIndex := 1 }

def c1vmB : VM :=
  { constants := []
    stack := fun i => if i = 0 then Obj.integer 5 else Obj.goNil
    sp := 1
    globals := fun _ => Obj.goNil
    frames := fun _ => none
    frameIndex := 1 }

def c7vmFull : VM :=
  { constants := []
    stack := fun _ => Obj.goNil
    sp := 2048
    globals := fun _ => Obj.goNil
    frames := fun _ => none
    frameIndex := 1024 }

/-- let f = fn() { let a = 1; }; f(); -- a call whose body ends in a let,
so the function returns through OpReturn with one local slot in use. -/
def c2prog : Ast := .program
  [ .letStmt "f" (.fnLit [] (.blockStmt [.letStmt "a" (.intLit 1)]))
  , .exprStmt (.callExpr (.identExpr "f") []) ]

def c2vm0 : VM :=
  match Compile c2prog Compiler.New with
  | .ok c => VMNew (BytecodeOf c)
  | .error _ => VMNew ⟨[], []⟩

def c2vmRV : VM :=
  { constants := []
    stack := fun i => if i = 1 then Obj.integer 42 else Obj.goNil
    sp := 2
    globals := fun _ => Obj.goNil
    frames := fun i =>
      if i = 0 then some (NewFrame ⟨[], 0, 0⟩ 0)
      else if i = 1 then some ⟨⟨[code.OpReturnValue], 0, 0⟩, -1, 1⟩
      else none
    frameIndex := 2 }

def c2vmRet : VM :=
  { constants := []
    stack := fun i => if i = 1 then Obj.integer 42 else Obj.goNil
    sp := 2
    globals := fun _ => Obj.goNil
    frames := fun i =>
      if i = 0 then some (NewFrame ⟨[], 0, 0⟩ 0)
      else if i = 1 then some ⟨⟨[code.OpReturn], 0, 0⟩, -1, 1⟩
      else none
    frameIndex := 2 }

/-- A VM about to execute a single trailing OpPop with one value on the
stack. -/
def c9vmA : VM :=
  { constants := []
    stack := fun i => if i = 0 then Obj.integer 9 else Obj.goNil
    sp := 1
    globals := fun _ => Obj.goNil
    frames := fun i =>
      if i = 0 then some ⟨⟨[code.OpPop], 0, 0⟩, -1, 0⟩ else none
    frameIndex := 1 }

def c10vmA : VM :=
  { constants := []
    stack := fun i => if i = 0 then Obj.integer 7
             else if i = 1 then Obj.integer 0 else Obj.goNil
    sp := 2
    globals := fun _ => Obj.goNil
    frames := fun _ => none
    frameIndex := 1 }

def c10vmB : VM :=
  { constants := []
    stack := fun i => if i = 0 then Obj.integer 7
             else if i = 1 then Obj.integer 2 else Obj.goNil
    sp := 2
    globals := fun _ => Obj.goNil
    frames := fun _ => none
    frameIndex := 1 }

/-! Compiler layout infrastructure: a compilation step only appends to the
current scope's instruction buffer, leaves the other scopes alone, and any
instruction it records as last was emitted at or after the old end. -/

/-- The compiler's structural invariant: the current scope is the last
entry of the scope stack (New, enterScope and leaveScope maintain it). -/
def WFc (c : Compiler) : Prop := c.scopeIndex + 1 = c.scopes.length

/-- What one compilation step does to the scope stack: same scope index,
same number of scopes, other scopes untouched, the current scope's buffer
extended, and either nothing was emitted at all or the recorded last
instruction lies at or beyond the old end of the buffer while the recorded
previous instruction is the old last one or also lies at or beyond it. -/
def Grows (c c2 : Compiler) : Prop :=
  c2.scopeIndex = c.scopeIndex ∧
  c2.scopes.length = c.scopes.length ∧
  (∀ i, i ≠ c.scopeIndex →
    c2.scopes.getD i emptyScope = c.scopes.getD i emptyScope) ∧
  (∃ d, currentInstructions c2 = currentInstructions c ++ d) ∧
  ((currentScope c2).lastInstruction = (currentScope c).lastInstruction ∧
     (currentScope c2).previousInstruction =
       (currentScope c).previousInstruction ∧
     currentInstructions c2 = currentInstructions c ∨
   (currentInstructions c).length ≤
       (currentScope c2).lastInstruction.Position ∧
     ((currentScope c2).previousInstruction =
        (currentScope c).lastInstruction ∨
      (currentInstructions c).length ≤
        (currentScope c2).previousInstruction.Position))

/-- The scope-stack shape preserved by every compiler step: same scope
index, same number of scopes, scopes other than the current one
untouched. -/
def Shp (a b : Compiler) : Prop :=
  b.scopeIndex = a.scopeIndex ∧ b.scopes.length = a.scopes.length ∧
  ∀ i, i ≠ a.scopeIndex →
    b.scopes.getD i emptyScope = a.scopes.getD i emptyScope

/-! Programs and compile results used by the remaining claims. -/

/-- `if (false) { 10 };` -/
def ifprog1 : Ast := .program [.exprStmt (.ifExpr (.boolLit false)
  (.blockStmt [.exprStmt (.intLit 10)]) none)]

/-- `if (10 > 1) { 10 } else { 20 };` -/
def ifprog2 : Ast := .program [.exprStmt (.ifExpr
  (.infixExpr ">" (.intLit 10) (.intLit 1))
  (.blockStmt [.exprStmt (.intLit 10)])
  (some (.blockStmt [.exprStmt (.intLit 20)])))]

/-- `let f = fn() {}; f(7);` -/
def c3prog : Ast := .program
  [ .letStmt "f" (.fnLit [] (.blockStmt [])),
    .exprStmt (.callExpr (.identExpr "f") [.intLit 7]) ]

/-- `let countDown = fn(x) { countDown(x - 1); };` -/
def c4prog : Ast := .program [.letStmt "countDown" (.fnLit ["x"]
  (.blockStmt [.exprStmt (.callExpr (.identExpr "countDown")
    [.infixExpr "-" (.identExpr "x") (.intLit 1)])]))]

/-- The compiler state after compiling the no-else if expression of
ifprog1 from a fresh compiler. -/
def c5compiled : Compiler :=
  match Compile (.ifExpr (.boolLit false)
      (.blockStmt [.exprStmt (.intLit 10)]) none) Compiler.New with
  | .ok c => c
  | .error _ => Compiler.New

/-- The compiler state after compiling `3 < 7` from a fresh compiler. -/
def c6compiled : Compiler :=
  match Compile (.infixExpr "<" (.intLit 3) (.intLit 7))
      Compiler.New with
  | .ok c => c
  | .error _ => Compiler.New

/-- The compiler state after compiling the callee `5` from a fresh
compiler. -/
def c3callee : Compiler :=
  match Compile (.intLit 5) Compiler.New with
  | .ok c => c
  | .error _ => Compiler.New

/-- The compiler state after compiling the bound value `1` from a fresh
compiler. -/
def c4value : Compiler :=
  match Compile (.intLit 1) Compiler.New with
  | .ok c => c
  | .error _ => Compiler.New

/-- A one-level outer table defining "a" as a local. -/
def c8outer : freesym.SymbolTable :=
  .mk [("a", ⟨"a", LocalScope, 0⟩)] 1 none []

/-! Helper lemmas about the VM primitives. -/

lemma readStack_ok_bounds {vm : VM} {i : Int} {o : Obj}
    (h : readStack vm i = Res.ok o) :
    0 ≤ i ∧ i < (StackSize : Int) ∧ o = vm.stack i.toNat := by
  by_cases hb : 0 ≤ i ∧ i < (StackSize : Int)
  · refine ⟨hb.1, hb.2, ?_⟩
    simpa [readStack, hb] using h.symm
  · simp [readStack, hb] at h

lemma pop_ok (vm : VM) (h0 : 0 ≤ vm.sp - 1) (h1 : vm.sp - 1 < (StackSize : Int)) :
    pop vm = .ok (vm.stack (vm.sp - 1).toNat, { vm with sp := vm.sp - 1 }) := by
  simp [pop, readStack, Res.bind, h0, h1]

lemma push_ok (vm : VM) (o : Obj) (h0 : 0 ≤ vm.sp)
    (h1 : vm.sp < (StackSize : Int)) :
    push vm o = .ok { vm with
      stack := fun j => if j = vm.sp.toNat then o else vm.stack j,
      sp := vm.sp + 1 } := by
  have : ¬ ((StackSize : Int) ≤ vm.sp) := by omega
  simp [push, writeStack, Res.bind, this, h0, h1]

/-- C1: executing OpCall dispatches to callFunction, which aborts the run
with "wrong number of arguments, expected N, actual M" when the callee at
stack index sp-argc-1 is a compiled function whose declared parameter count
differs from argc (so no frame is pushed), and with "calling non-function"
when that value is not a compiled-function value at all. -/
theorem C1_opcall_errors :
    ∀ (vm : VM) (numArgs : Nat) (fn : CompiledFn) (callee : Obj),
      (readStack vm (vm.sp - (numArgs : Int) - 1) =
          Res.ok (Obj.compiledFunction fn) →
        numArgs ≠ fn.NumParameters →
        callFunction vm numArgs =
          Res.err ("wrong number of arguments, expected " ++
            toString fn.NumParameters ++ ", actual " ++ toString numArgs)) ∧
      (readStack vm (vm.sp - (numArgs : Int) - 1) = Res.ok callee →
        (∀ g, callee ≠ Obj.compiledFunction g) →
        callFunction vm numArgs = Res.err "calling non-function") := by
  intro vm numArgs fn callee
  constructor
  · intro hread hne
    simp [callFunction, hread, Res.bind, hne]
  · intro hread hnot
    cases callee with
    | compiledFunction g => exact absurd rfl (hnot g)
    | integer v => simp [callFunction, hread, Res.bind]
    | boolean v => simp [callFunction, hread, Res.bind]
    | null => simp [callFunction, hread, Res.bind]
    | strObj v => simp [callFunction, hread, Res.bind]
    | arr v => simp [callFunction, hread, Res.bind]
    | hashObj v => simp [callFunction, hread, Res.bind]
    | goNil => simp [callFunction, hread, Res.bind]

theorem C1_opcall_errors_witness :
    callFunction c1vmA 1 =
      Res.err ("wrong number of arguments, expected " ++ toString 0 ++
        ", actual " ++ toString 1) ∧
    callFunction c1vmB 0 = Res.err "calling non-function" := by
  constructor
  · exact (C1_opcall_errors c1vmA 1 ⟨[], 0, 0⟩ Obj.goNil).1 rfl (by decide)
  · exact (C1_opcall_errors c1vmB 0 ⟨[], 0, 0⟩ (Obj.integer 5)).2 rfl
      (fun g => by simp)

/-- C7 (amended): pushing onto the operand stack with sp at or past 2048
is the VM error "stack overflow", but pushing a call frame past the
1024-entry frame array is an unguarded out-of-range write -- a Go runtime
panic, not a VM error with that message. -/
theorem C7_overflow_amended :
    (∀ (vm : VM) (o : Obj), (StackSize : Int) ≤ vm.sp →
      push vm o = Res.err "stack overflow") ∧
    (∀ (vm : VM) (f : Frame), (MaxFrames : Int) ≤ vm.frameIndex →
      pushFrame vm f = Res.crash "index out of range") := by
  constructor
  · intro vm o h
    simp [push, h]
  · intro vm f h
    have : ¬ (0 ≤ vm.frameIndex ∧ vm.frameIndex < (MaxFrames : Int)) := by
      omega
    simp [pushFrame, this]

/-- C7 counterexample: with the frame stack full (frameIndex = 1024),
pushing one more frame is a runtime panic, not the fatal VM error
"stack overflow" the claim promises for every arena. -/
theorem C7_overflow_counterexample :
    pushFrame c7vmFull (NewFrame ⟨[], 0, 0⟩ 0) =
      Res.crash "index out of range" ∧
    pushFrame c7vmFull (NewFrame ⟨[], 0, 0⟩ 0) ≠
      Res.err "stack overflow" := by
  refine ⟨rfl, ?_⟩
  intro h
  rw [show pushFrame c7vmFull (NewFrame ⟨[], 0, 0⟩ 0) =
    Res.crash "index out of range" from rfl] at h
  exact Res.noConfusion h

theorem C7_overflow_witness :
    push c7vmFull Obj.null = Res.err "stack overflow" ∧
    pushFrame c7vmFull (NewFrame ⟨[], 0, 0⟩ 0) =
      Res.crash "index out of range" := by
  constructor
  · exact C7_overflow_amended.1 c7vmFull Obj.null (by decide)
  · exact C7_overflow_amended.2 c7vmFull (NewFrame ⟨[], 0, 0⟩ 0) (by decide)

lemma currentFrame_ok_spec {vm : VM} {f : Frame}
    (h : currentFrame vm = Res.ok f) :
    0 ≤ vm.frameIndex - 1 ∧ vm.frameIndex - 1 < (MaxFrames : Int) ∧
    vm.frames (vm.frameIndex - 1).toNat = some f := by
  unfold currentFrame at h
  by_cases hb : 0 ≤ vm.frameIndex - 1 ∧ vm.frameIndex - 1 < (MaxFrames : Int)
  · rw [if_pos hb] at h
    refine ⟨hb.1, hb.2, ?_⟩
    cases hf : vm.frames (vm.frameIndex - 1).toNat with
    | some g =>
      rw [hf] at h
      simp only [Res.ok.injEq] at h
      rw [h]
    | none =>
      rw [hf] at h
      exact absurd h (by simp)
  · rw [if_neg hb] at h
    exact absurd h (by simp)

lemma fetchByte_ok_bounds {ins : List Nat} {i : Int} {b : Nat}
    (h : fetchByte ins i = Res.ok b) :
    0 ≤ i ∧ i < (ins.length : Int) := by
  by_cases hb : 0 ≤ i ∧ i < (ins.length : Int)
  · exact hb
  · simp [fetchByte, hb] at h

lemma stepOp_oppop (vm : VM) (f1 : Frame) (ins : List Nat) (ip : Int) :
    stepOp vm f1 ins ip code.OpPop =
      Res.bind (pop vm) fun p => .ok p.2 := rfl

/-- Executing a final OpPop of the current frame: step pops the value and
leaves everything else alone. -/
lemma step_oppop {vm : VM} {f : Frame}
    (hcf : currentFrame vm = Res.ok f)
    (hfetch : fetchByte f.fn.Instructions (f.ip + 1) = Res.ok code.OpPop)
    (h1 : 1 ≤ vm.sp) (h2 : vm.sp ≤ (StackSize : Int)) :
    step vm = Res.ok
      { setCurrentFrame vm { f with ip := f.ip + 1 } with sp := vm.sp - 1 } := by
  have hpop := pop_ok (setCurrentFrame vm { f with ip := f.ip + 1 })
    (by simp [setCurrentFrame]; omega) (by simp [setCurrentFrame]; omega)
  simp only [step, hcf, Res.bind, hfetch]
  rw [stepOp_oppop]
  simp only [hpop, Res.bind]
  rfl

/-- C9: popping merely decrements sp and never clears the vacated slot, so
stack[sp] still holds the popped value afterwards and LastPoppedStackElem
returns it; consequently, after Run finishes a program whose final executed
instruction is the trailing OpPop of an expression statement, stack[sp]
holds that final expression's value and LastPoppedStackElem returns it. -/
theorem C9_last_popped :
    (∀ (vm : VM) (o : Obj) (vmP : VM), pop vm = Res.ok (o, vmP) →
      vmP.stack = vm.stack ∧ vmP.sp = vm.sp - 1 ∧
      LastPoppedStackElem vmP = Res.ok o ∧ o = vm.stack (vm.sp - 1).toNat) ∧
    (∀ (vm : VM) (f : Frame) (n : Nat),
      currentFrame vm = Res.ok f →
      fetchByte f.fn.Instructions (f.ip + 1) = Res.ok code.OpPop →
      f.ip + 1 = (f.fn.Instructions.length : Int) - 1 →
      1 ≤ vm.sp → vm.sp ≤ (StackSize : Int) →
      ∃ vm2, run (n + 2) vm = RunResult.ok vm2 ∧
        vm2.stack = vm.stack ∧ vm2.sp = vm.sp - 1 ∧
        LastPoppedStackElem vm2 = Res.ok (vm.stack (vm.sp - 1).toNat)) := by
  constructor
  · intro vm o vmP h
    by_cases hb : 0 ≤ vm.sp - 1 ∧ vm.sp - 1 < (StackSize : Int)
    · rw [pop_ok vm hb.1 hb.2] at h
      simp only [Res.ok.injEq, Prod.mk.injEq] at h
      obtain ⟨ho, hvm⟩ := h
      subst hvm
      refine ⟨rfl, rfl, ?_, ho.symm⟩
      simp only [LastPoppedStackElem, readStack]
      rw [if_pos hb]
      simp only [Res.ok.injEq]
      exact ho
    · simp only [pop, readStack] at h
      rw [if_neg hb] at h
      exact absurd h (by simp [Res.bind])
  · intro vm f n hcf hfetch hip h1 h2
    have hbounds := fetchByte_ok_bounds hfetch
    have hcfs := currentFrame_ok_spec hcf
    have hstep := step_oppop hcf hfetch h1 h2
    refine ⟨{ setCurrentFrame vm { f with ip := f.ip + 1 } with
              sp := vm.sp - 1 }, ?_, rfl, rfl, ?_⟩
    · have hcond1 : loopCond vm = Res.ok true := by
        simp only [loopCond, hcf, Res.bind, Res.ok.injEq,
          decide_eq_true_eq]
        omega
      have hcf2 : currentFrame
          { setCurrentFrame vm { f with ip := f.ip + 1 } with
            sp := vm.sp - 1 } = Res.ok { f with ip := f.ip + 1 } := by
        simp only [currentFrame, setCurrentFrame]
        rw [if_pos ⟨hcfs.1, hcfs.2.1⟩]
        simp
      have hcond2 : loopCond
          { setCurrentFrame vm { f with ip := f.ip + 1 } with
            sp := vm.sp - 1 } = Res.ok false := by
        simp only [loopCond, hcf2, Res.bind, Res.ok.injEq,
          decide_eq_false_iff_not]
        omega
      simp only [run, hcond1, hstep, hcond2]
    · simp only [LastPoppedStackElem, readStack, setCurrentFrame]
      have hb : 0 ≤ vm.sp - 1 ∧ vm.sp - 1 < (StackSize : Int) :=
        ⟨by omega, by omega⟩
      rw [if_pos hb]

/-- Witness for C9_last_popped on a concrete one-instruction program. -/
theorem C9_last_popped_witness :
    (∃ vmP, pop c9vmA = Res.ok (Obj.integer 9, vmP) ∧
      vmP.stack = c9vmA.stack ∧ vmP.sp = c9vmA.sp - 1 ∧
      LastPoppedStackElem vmP = Res.ok (Obj.integer 9)) ∧
    (∃ vm2, run 2 c9vmA = RunResult.ok vm2 ∧ vm2.stack = c9vmA.stack ∧
      vm2.sp = c9vmA.sp - 1 ∧
      LastPoppedStackElem vm2 =
        Res.ok (c9vmA.stack (c9vmA.sp - 1).toNat)) := by
  constructor
  · obtain ⟨hs, hsp, hlast, hval⟩ := C9_last_popped.1 c9vmA
      (Obj.integer 9) { c9vmA with sp := 0 } rfl
    exact ⟨{ c9vmA with sp := 0 }, rfl, hs, hsp, hlast⟩
  · obtain ⟨vm2, hrun, hs, hsp, hlast⟩ := C9_last_popped.2 c9vmA
      ⟨⟨[code.OpPop], 0, 0⟩, -1, 0⟩ 0 rfl rfl (by decide) (by decide)
      (by decide)
    exact ⟨vm2, hrun, hs, hsp, hlast⟩

lemma stepOp_opreturnvalue (vm : VM) (f1 : Frame) (ins : List Nat)
    (ip : Int) :
    stepOp vm f1 ins ip code.OpReturnValue =
      (Res.bind (pop vm) fun p =>
        Res.bind (popFrame p.2) fun fr =>
          push { fr.2 with sp := fr.1.basePointer - 1 } p.1) := rfl

lemma stepOp_opreturn (vm : VM) (f1 : Frame) (ins : List Nat) (ip : Int) :
    stepOp vm f1 ins ip code.OpReturn =
      (Res.bind (popFrame vm) fun fr =>
        Res.bind (pop fr.2) fun p =>
          push p.2 Obj.null) := rfl

lemma stepOp_opdiv (vm : VM) (f1 : Frame) (ins : List Nat) (ip : Int) :
    stepOp vm f1 ins ip code.OpDiv =
      executeBinaryOperation vm code.OpDiv := rfl

lemma popFrame_ok (vm : VM) (g : Frame) (h0 : 0 ≤ vm.frameIndex - 1)
    (h1 : vm.frameIndex - 1 < (MaxFrames : Int))
    (hg : vm.frames (vm.frameIndex - 1).toNat = some g) :
    popFrame vm = .ok (g, { vm with frameIndex := vm.frameIndex - 1 }) := by
  simp only [popFrame]
  rw [if_pos ⟨h0, h1⟩, hg]

/-- C2 (amended): OpReturnValue pops the return value, pops the frame,
sets sp to basePointer - 1 and pushes the value, so sp ends at the base
pointer with the returned value at index bp - 1 -- the callee slot and all
local slots are discarded. OpReturn, however, merely pops the frame, pops
one value and pushes Null, leaving sp unchanged overall with Null in the
top slot -- the callee slot and locals are only cleaned up correctly when
the callee occupied no slots beyond the one popped. -/
theorem C2_return_amended :
    ∀ (vm : VM) (f : Frame),
      currentFrame vm = Res.ok f →
      1 ≤ vm.sp → vm.sp ≤ (StackSize : Int) →
      ((fetchByte f.fn.Instructions (f.ip + 1) = Res.ok code.OpReturnValue →
        1 ≤ f.basePointer → f.basePointer ≤ (StackSize : Int) →
        ∃ vm2, step vm = Res.ok vm2 ∧
          vm2.sp = f.basePointer ∧
          vm2.frameIndex = vm.frameIndex - 1 ∧
          readStack vm2 (f.basePointer - 1) =
            Res.ok (vm.stack (vm.sp - 1).toNat)) ∧
      (fetchByte f.fn.Instructions (f.ip + 1) = Res.ok code.OpReturn →
        ∃ vm2, step vm = Res.ok vm2 ∧
          vm2.sp = vm.sp ∧
          vm2.frameIndex = vm.frameIndex - 1 ∧
          readStack vm2 (vm.sp - 1) = Res.ok Obj.null)) := by
  intro vm f hcf h1 h2
  have hcfs := currentFrame_ok_spec hcf
  constructor
  · intro hfetch hbp1 hbp2
    simp only [step, hcf, Res.bind, hfetch]
    rw [stepOp_opreturnvalue]
    rw [pop_ok (setCurrentFrame vm { f with ip := f.ip + 1 })
      (by show 0 ≤ vm.sp - 1; omega) (by show vm.sp - 1 < _; omega)]
    simp only [Res.bind]
    rw [popFrame_ok _ { f with ip := f.ip + 1 }
      (by show 0 ≤ vm.frameIndex - 1; omega)
      (by show vm.frameIndex - 1 < _; omega)
      (by show (if (vm.frameIndex - 1).toNat = (vm.frameIndex - 1).toNat
            then some { f with ip := f.ip + 1 }
            else vm.frames (vm.frameIndex - 1).toNat) = _
          simp)]
    simp only [Res.bind]
    rw [push_ok _ _ (by show 0 ≤ f.basePointer - 1; omega)
      (by show f.basePointer - 1 < _; omega)]
    refine ⟨_, rfl, ?_, rfl, ?_⟩
    · show f.basePointer - 1 + 1 = f.basePointer
      omega
    · simp only [readStack]
      rw [if_pos ⟨by omega, by omega⟩]
      simp [setCurrentFrame]
  · intro hfetch
    simp only [step, hcf, Res.bind, hfetch]
    rw [stepOp_opreturn]
    rw [popFrame_ok _ { f with ip := f.ip + 1 }
      (by show 0 ≤ vm.frameIndex - 1; omega)
      (by show vm.frameIndex - 1 < _; omega)
      (by show (if (vm.frameIndex - 1).toNat = (vm.frameIndex - 1).toNat
            then some { f with ip := f.ip + 1 }
            else vm.frames (vm.frameIndex - 1).toNat) = _
          simp)]
    simp only [Res.bind]
    rw [pop_ok _ (by show 0 ≤ vm.sp - 1; omega)
      (by show vm.sp - 1 < _; omega)]
    simp only [Res.bind]
    rw [push_ok _ _ (by show 0 ≤ vm.sp - 1; omega)
      (by show vm.sp - 1 < _; omega)]
    refine ⟨_, rfl, ?_, rfl, ?_⟩
    · show vm.sp - 1 + 1 = vm.sp
      omega
    · simp only [readStack]
      rw [if_pos ⟨by omega, by omega⟩]
      simp [setCurrentFrame]

/-- C2 counterexample: running c2prog for seven loop iterations executes
its OpReturn. The popped frame has base pointer 1, so the claim demands
sp = 1 afterwards with Null at index 0; instead sp is 2, Null sits at
index 1, and the callee still occupies slot 0 -- neither the callee slot
nor the local was discarded. -/
theorem C2_return_counterexample :
    (match stepN 7 c2vm0 with
     | Res.ok s => (s.sp, s.frameIndex, s.stack 0, s.stack 1,
         (s.frames 1).map Frame.basePointer)
     | _ => (0, 0, Obj.goNil, Obj.goNil, none)) =
      (2, 1, Obj.compiledFunction ⟨[0, 0, 0, 25, 0, 23], 1, 0⟩, Obj.null,
        some 1) ∧
    (2 : Int) ≠ 1 - 1 + 1 ∨ False := by
  exact Or.inl ⟨rfl, by decide⟩

theorem C2_return_amended_witness :
    (∃ vm2, step c2vmRV = Res.ok vm2 ∧
      vm2.sp = 1 ∧ vm2.frameIndex = 1 ∧
      readStack vm2 0 = Res.ok (Obj.integer 42)) ∧
    (∃ vm2, step c2vmRet = Res.ok vm2 ∧
      vm2.sp = 2 ∧ vm2.frameIndex = 1 ∧
      readStack vm2 1 = Res.ok Obj.null) := by
  constructor
  · exact (C2_return_amended c2vmRV ⟨⟨[code.OpReturnValue], 0, 0⟩, -1, 1⟩
      rfl (by decide) (by decide)).1 rfl (by decide) (by decide)
  · exact (C2_return_amended c2vmRet ⟨⟨[code.OpReturn], 0, 0⟩, -1, 1⟩
      rfl (by decide) (by decide)).2 rfl

/-- C10: every execution of OpDiv dispatches to the binary integer
operation; with a zero right operand there is no divisor guard and no VM
error is returned -- Go's division panics, crashing the process -- while
every division by a nonzero divisor pushes the 64-bit quotient truncated
toward zero. -/
theorem C10_div_no_guard :
    (∀ (vm : VM) (f1 : Frame) (ins : List Nat) (ip : Int),
      stepOp vm f1 ins ip code.OpDiv = executeBinaryOperation vm code.OpDiv) ∧
    (∀ (vm : VM) (l r : Int),
      readStack vm (vm.sp - 1) = Res.ok (Obj.integer r) →
      readStack vm (vm.sp - 2) = Res.ok (Obj.integer l) →
      (r = 0 →
        executeBinaryOperation vm code.OpDiv =
          Res.crash "integer divide by zero" ∧
        ∀ m, executeBinaryOperation vm code.OpDiv ≠ Res.err m) ∧
      (r ≠ 0 → ∃ vm2,
        executeBinaryOperation vm code.OpDiv = Res.ok vm2 ∧
        vm2.sp = vm.sp - 1 ∧
        readStack vm2 (vm.sp - 2) =
          Res.ok (Obj.integer (wrap64 (Int.tdiv l r))))) := by
  constructor
  · intro vm f1 ins ip
    exact stepOp_opdiv vm f1 ins ip
  · intro vm l r hr hl
    have hbr := readStack_ok_bounds hr
    have hbl := readStack_ok_bounds hl
    have heq : executeBinaryOperation vm code.OpDiv =
        (if r = 0 then Res.crash "integer divide by zero"
         else push { vm with sp := vm.sp - 2 }
           (Obj.integer (wrap64 (Int.tdiv l r)))) := by
      simp only [executeBinaryOperation]
      rw [pop_ok vm (by omega) (by omega)]
      simp only [Res.bind]
      rw [pop_ok _ (by show 0 ≤ vm.sp - 1 - 1; omega)
        (by show vm.sp - 1 - 1 < _; omega)]
      simp only [Res.bind]
      rw [show vm.sp - 1 - 1 = vm.sp - 2 from by omega,
          ← hbr.2.2, ← hbl.2.2]
      simp only [typeOf, Res.bind]
      simp only [eq_self_iff_true, and_self, if_true, ite_true]
      simp only [executeBinaryIntegerOperation]
      norm_num [code.OpDiv, code.OpAdd, code.OpSub, code.OpMul]
    constructor
    · intro h0
      rw [heq, if_pos h0]
      refine ⟨by trivial, ?_⟩
      intro m hcontra
      exact Res.noConfusion hcontra
    · intro hne
      rw [heq, if_neg hne]
      rw [push_ok _ _ (by show 0 ≤ vm.sp - 2; omega)
        (by show vm.sp - 2 < _; omega)]
      refine ⟨_, rfl, ?_, ?_⟩
      · show vm.sp - 2 + 1 = vm.sp - 1
        omega
      · simp only [readStack]
        rw [if_pos ⟨by omega, by omega⟩]
        simp

theorem C10_div_no_guard_witness :
    executeBinaryOperation c10vmA code.OpDiv =
      Res.crash "integer divide by zero" ∧
    (∃ vm2, executeBinaryOperation c10vmB code.OpDiv = Res.ok vm2 ∧
      vm2.sp = c10vmB.sp - 1 ∧
      readStack vm2 (c10vmB.sp - 2) =
        Res.ok (Obj.integer (wrap64 (Int.tdiv 7 2)))) := by
  constructor
  · exact ((C10_div_no_guard.2 c10vmA 7 0 rfl rfl).1 rfl).1
  · exact (C10_div_no_guard.2 c10vmB 7 2 rfl rfl).2 (by decide)

lemma getD_set_self {α : Type} (l : List α) (i : Nat) (a d : α)
    (h : i < l.length) : (l.set i a).getD i d = a := by
  induction l generalizing i with
  | nil => simp at h
  | cons b rest ih =>
    cases i with
    | zero => rfl
    | succ j => simpa using ih j (by simpa using h)

lemma getD_set_ne {α : Type} (l : List α) (i j : Nat) (a d : α)
    (h : j ≠ i) : (l.set i a).getD j d = l.getD j d := by
  induction l generalizing i j with
  | nil => rfl
  | cons b rest ih =>
    cases i with
    | zero =>
      cases j with
      | zero => exact absurd rfl h
      | succ k => rfl
    | succ i2 =>
      cases j with
      | zero => rfl
      | succ k => simpa using ih i2 k (by omega)

lemma getD_append_lt {α : Type} (xs ys : List α) (i : Nat) (d : α)
    (h : i < xs.length) : (xs ++ ys).getD i d = xs.getD i d :=
  List.getD_append xs ys d i h

lemma getD_eq_default_of_le {α : Type} (l : List α) (i : Nat) (d : α)
    (h : l.length ≤ i) : l.getD i d = d := by
  induction l generalizing i with
  | nil => rfl
  | cons b rest ih =>
    cases i with
    | zero => simp at h
    | succ j => simpa using ih j (by simpa using h)

lemma take_append_of_le {α : Type} (xs ys : List α) (n : Nat)
    (h : xs.length ≤ n) :
    (xs ++ ys).take n = xs ++ ys.take (n - xs.length) := by
  induction xs generalizing n with
  | nil => simp
  | cons b rest ih =>
    cases n with
    | zero => simp at h
    | succ m =>
      simp only [List.cons_append, List.take_succ_cons, List.length_cons]
      rw [ih m (by simpa using h)]
      have he : m + 1 - (rest.length + 1) = m - rest.length := by omega
      rw [he]

lemma set_append_of_le {α : Type} (xs ys : List α) (n : Nat) (a : α)
    (h : xs.length ≤ n) :
    (xs ++ ys).set n a = xs ++ ys.set (n - xs.length) a := by
  induction xs generalizing n with
  | nil => simp
  | cons b rest ih =>
    cases n with
    | zero => simp at h
    | succ m =>
      simp only [List.cons_append, List.set_cons_succ, List.length_cons]
      rw [ih m (by simpa using h)]
      have he : m + 1 - (rest.length + 1) = m - rest.length := by omega
      rw [he]

lemma replaceBytes_append_of_le (xs ys bs : List Nat) (pos : Nat)
    (h : xs.length ≤ pos) :
    code.replaceBytes (xs ++ ys) pos bs =
      xs ++ code.replaceBytes ys (pos - xs.length) bs := by
  induction bs generalizing ys pos with
  | nil => rfl
  | cons b rest ih =>
    simp only [code.replaceBytes]
    rw [set_append_of_le xs ys pos b h, ih (ys.set (pos - xs.length) b)
      (pos + 1) (by omega)]
    have : pos + 1 - xs.length = pos - xs.length + 1 := by omega
    rw [this]

lemma replaceBytes_three (a b e : Nat) (ys : List Nat) (p q r : Nat) :
    code.replaceBytes (a :: b :: e :: ys) 0 [p, q, r] = p :: q :: r :: ys := by
  simp [code.replaceBytes, List.set]

lemma WFc_lt {c : Compiler} (h : WFc c) : c.scopeIndex < c.scopes.length := by
  unfold WFc at h
  omega

lemma currentScope_setCurrentScope (c : Compiler) (s : CompilationScope)
    (h : c.scopeIndex < c.scopes.length) :
    currentScope (setCurrentScope c s) = s := by
  simp only [currentScope, setCurrentScope]
  exact getD_set_self _ _ _ _ h

lemma WFc_setCurrentScope (c : Compiler) (s : CompilationScope)
    (h : WFc c) : WFc (setCurrentScope c s) := by
  unfold WFc at h
  unfold WFc setCurrentScope
  simpa using h

lemma emit_fst (c : Compiler) (op : Nat) (ops : List Int) :
    (emit c op ops).1 = (currentInstructions c).length := rfl

lemma emit_snd (c : Compiler) (op : Nat) (ops : List Int)
    (h : c.scopeIndex < c.scopes.length) :
    (emit c op ops).2 = setCurrentScope c
      ⟨currentInstructions c ++ code.Make op ops,
       ⟨op, (currentInstructions c).length⟩,
       (currentScope c).lastInstruction⟩ := by
  simp only [emit, addInstruction, setLastInstruction]
  rw [currentScope_setCurrentScope _ _ h]
  simp only [setCurrentScope]
  rw [List.set_set]

lemma currentScope_emit (c : Compiler) (op : Nat) (ops : List Int)
    (h : c.scopeIndex < c.scopes.length) :
    currentScope (emit c op ops).2 =
      ⟨currentInstructions c ++ code.Make op ops,
       ⟨op, (currentInstructions c).length⟩,
       (currentScope c).lastInstruction⟩ := by
  rw [emit_snd c op ops h, currentScope_setCurrentScope]
  · simpa using h

lemma grows_refl (c : Compiler) : Grows c c :=
  ⟨rfl, rfl, fun _ _ => rfl, ⟨[], by simp⟩, Or.inl ⟨rfl, rfl, rfl⟩⟩

lemma grows_trans {a b c : Compiler} (h1 : Grows a b) (h2 : Grows b c) :
    Grows a c := by
  obtain ⟨hi1, hl1, ho1, ⟨d1, hd1⟩, hp1⟩ := h1
  obtain ⟨hi2, hl2, ho2, ⟨d2, hd2⟩, hp2⟩ := h2
  have hlen : (currentInstructions a).length ≤
      (currentInstructions b).length := by
    rw [hd1]
    simp
  refine ⟨hi2.trans hi1, hl2.trans hl1, ?_, ⟨d1 ++ d2, ?_⟩, ?_⟩
  · intro i hi
    rw [hi1] at ho2
    exact (ho2 i hi).trans (ho1 i hi)
  · rw [hd2, hd1, List.append_assoc]
  · rcases hp1 with ⟨he1, hq1, hs1⟩ | ⟨hpos1, hprev1⟩
    · rcases hp2 with ⟨he2, hq2, hs2⟩ | ⟨hpos2, hprev2⟩
      · exact Or.inl ⟨he2.trans he1, hq2.trans hq1, hs2.trans hs1⟩
      · right
        rw [hs1] at hpos2 hprev2
        refine ⟨hpos2, ?_⟩
        rcases hprev2 with hp | hp
        · exact Or.inl (hp.trans he1)
        · exact Or.inr hp
    · rcases hp2 with ⟨he2, hq2, hs2⟩ | ⟨hpos2, hprev2⟩
      · right
        rw [he2, hq2]
        exact ⟨hpos1, hprev1⟩
      · right
        refine ⟨by omega, ?_⟩
        rcases hprev2 with hp | hp
        · right
          rw [hp]
          exact hpos1
        · right
          omega

lemma grows_emit (c : Compiler) (op : Nat) (ops : List Int) (h : WFc c) :
    WFc (emit c op ops).2 ∧ Grows c (emit c op ops).2 := by
  have hlt := WFc_lt h
  rw [emit_snd c op ops hlt]
  refine ⟨WFc_setCurrentScope _ _ h, rfl, by simp [setCurrentScope], ?_, ?_, ?_⟩
  · intro i hi
    simp only [setCurrentScope]
    exact getD_set_ne _ _ _ _ _ hi
  · refine ⟨code.Make op ops, ?_⟩
    simp only [currentInstructions]
    rw [currentScope_setCurrentScope _ _ hlt]
  · right
    rw [currentScope_setCurrentScope _ _ hlt]
    exact ⟨by simp, Or.inl rfl⟩

/-- A step that does not touch the scope stack (constants or symbol-table
updates) trivially Grows. -/
lemma grows_of_scopes_eq {c c2 : Compiler} (hs : c2.scopes = c.scopes)
    (hi : c2.scopeIndex = c.scopeIndex) : Grows c c2 := by
  refine ⟨hi, by rw [hs], ?_, ⟨[], ?_⟩, Or.inl ⟨?_, ?_, ?_⟩⟩
  · intro i _
    rw [hs]
  · simp [currentInstructions, currentScope, hs, hi]
  · simp [currentScope, hs, hi]
  · simp [currentScope, hs, hi]
  · simp [currentInstructions, currentScope, hs, hi]

lemma currentInstructions_emit (c : Compiler) (op : Nat) (ops : List Int)
    (h : c.scopeIndex < c.scopes.length) :
    currentInstructions (emit c op ops).2 =
      currentInstructions c ++ code.Make op ops := by
  rw [currentInstructions, currentScope_emit _ _ _ h]

lemma getD_append_len {α : Type} (xs : List α) (y : α) (ys : List α)
    (d : α) : (xs ++ y :: ys).getD xs.length d = y := by
  rw [List.getD_append_right _ _ _ _ (le_refl _)]
  simp

lemma make_two_operand (opv : Nat) (operand : Int)
    (hw : code.operandWidths opv = some [2]) :
    code.Make opv [operand] =
      opv :: ((operand % 65536) / 256).toNat :: (operand % 256).toNat :: [] := by
  simp [code.Make, hw, code.fill, code.enc]

/-- changeOperand at a two-byte-operand instruction sitting at offset
xs.length: the bytes before and after the instruction are untouched and
its operand is re-encoded. -/
lemma changeOperand_two (c : Compiler) (xs : List Nat) (opv t1 t2 : Nat)
    (rest : List Nat) (operand : Int)
    (hlt : c.scopeIndex < c.scopes.length)
    (hins : currentInstructions c = xs ++ opv :: t1 :: t2 :: rest)
    (hw : code.operandWidths opv = some [2]) :
    changeOperand c xs.length operand = setCurrentScope c
      { currentScope c with instructions :=
          xs ++ opv :: ((operand % 65536) / 256).toNat ::
            (operand % 256).toNat :: rest } := by
  have hop : (currentInstructions c).getD xs.length 0 = opv := by
    rw [hins]
    exact getD_append_len xs opv _ 0
  simp only [changeOperand, replaceInstruction, hop]
  congr 1
  rw [hins, replaceBytes_append_of_le _ _ _ _ (le_refl _), Nat.sub_self,
    make_two_operand opv operand hw, replaceBytes_three]

lemma shp_trans {a b c : Compiler} (h1 : Shp a b) (h2 : Shp b c) :
    Shp a c := by
  obtain ⟨hi1, hl1, ho1⟩ := h1
  obtain ⟨hi2, hl2, ho2⟩ := h2
  refine ⟨hi2.trans hi1, hl2.trans hl1, fun i hi => ?_⟩
  rw [hi1] at ho2
  exact (ho2 i hi).trans (ho1 i hi)

lemma shp_setCurrentScope (c : Compiler) (s : CompilationScope) :
    Shp c (setCurrentScope c s) := by
  refine ⟨rfl, by simp [setCurrentScope], fun i hi => ?_⟩
  simp only [setCurrentScope]
  exact getD_set_ne _ _ _ _ _ hi

lemma shp_emit (c : Compiler) (op : Nat) (ops : List Int) :
    Shp c (emit c op ops).2 := by
  refine ⟨rfl,
    by simp [emit, addInstruction, setLastInstruction, setCurrentScope],
    fun i hi => ?_⟩
  simp only [emit, addInstruction, setLastInstruction, setCurrentScope]
  exact (getD_set_ne _ _ _ _ _ hi).trans (getD_set_ne _ _ _ _ _ hi)

set_option maxHeartbeats 2000000 in
/-- The full layout of compiling an if expression with no else branch,
given the intermediate compile results and their Grows facts: the emitted
code is condition bytes, OpJumpNotTruthy patched to the offset A of the
OpNull alternative, the (possibly pop-stripped) consequence bytes, OpJump
patched to the first byte B after the alternative, and the OpNull. -/
lemma ifnone_layout (cond cons : Ast) (c c1 c2x : Compiler)
    (hwf : WFc c)
    (hcond : Compile cond c = .ok c1)
    (hcons : Compile cons (emit c1 code.OpJumpNotTruthy [0]).2 = .ok c2x)
    (g1 : WFc c1 ∧ Grows c c1)
    (g2 : WFc c2x ∧ Grows (emit c1 code.OpJumpNotTruthy [0]).2 c2x) :
    ∀ c', Compile (.ifExpr cond cons none) c = .ok c' →
      WFc c' ∧ Grows c c' ∧
      ∃ dCond dCons A B,
        currentInstructions c1 = currentInstructions c ++ dCond ∧
        A = (currentInstructions c).length + dCond.length + 3 +
            dCons.length + 3 ∧
        B = A + 1 ∧
        currentInstructions c' =
          currentInstructions c ++ dCond ++
          (code.OpJumpNotTruthy :: code.enc 2 (A : Int)) ++ dCons ++
          (code.OpJump :: code.enc 2 (B : Int)) ++ [code.OpNull] := by
  intro c' hok
  obtain ⟨hwf1, hg1⟩ := g1
  obtain ⟨hwf2, hg2⟩ := g2
  obtain ⟨hgi1, hgl1, hgo1, ⟨d1, hd1⟩, hgp1⟩ := hg1
  -- the state after emitting the placeholder OpJumpNotTruthy
  have hlt1 := WFc_lt hwf1
  have hE := grows_emit c1 code.OpJumpNotTruthy [0] hwf1
  have hcurE : currentInstructions (emit c1 code.OpJumpNotTruthy [0]).2 =
      currentInstructions c1 ++ [code.OpJumpNotTruthy, 0, 0] :=
    currentInstructions_emit c1 _ _ hlt1
  have hlastE :
      CompilationScope.lastInstruction
        (currentScope (emit c1 code.OpJumpNotTruthy [0]).2) =
      ⟨code.OpJumpNotTruthy, (currentInstructions c1).length⟩ := by
    rw [currentScope_emit _ _ _ hlt1]
  obtain ⟨hgi2, hgl2, hgo2, ⟨d2, hd2⟩, hgp2⟩ := hg2
  -- the consequence bytes after the conditional pop-stripping
  have hstrip : ∃ d2p c3,
      (if lastInstructionIsPop c2x then removeLastPop c2x else c2x) = c3 ∧
      currentInstructions c3 =
        currentInstructions (emit c1 code.OpJumpNotTruthy [0]).2 ++ d2p ∧
      c3.scopeIndex = c2x.scopeIndex ∧
      c3.scopes.length = c2x.scopes.length ∧
      (∀ i, i ≠ c2x.scopeIndex →
        c3.scopes.getD i emptyScope = c2x.scopes.getD i emptyScope) ∧
      WFc c3 := by
    by_cases hpop : lastInstructionIsPop c2x
    · rcases hgp2 with ⟨hle, hpe, hli⟩ | ⟨hpos, hprev⟩
      · -- nothing was emitted by the consequence: its last instruction is
        -- still the placeholder jump, which is not OpPop
        exfalso
        unfold lastInstructionIsPop lastInstructionIs at hpop
        rw [hle, hlastE] at hpop
        simp [code.OpPop, code.OpJumpNotTruthy] at hpop
      · refine ⟨(List.take ((currentScope c2x).lastInstruction.Position -
          (currentInstructions (emit c1 code.OpJumpNotTruthy [0]).2).length)
          d2), removeLastPop c2x, by simp [hpop], ?_, ?_, ?_, ?_, ?_⟩
        · simp only [removeLastPop, currentInstructions]
          rw [currentScope_setCurrentScope _ _ (WFc_lt hwf2)]
          show List.take _ (currentScope c2x).instructions = _
          have : (currentScope c2x).instructions = currentInstructions c2x :=
            rfl
          rw [this, hd2, take_append_of_le _ _ _ hpos]
          rfl
        · simp [removeLastPop, setCurrentScope]
        · simp [removeLastPop, setCurrentScope]
        · intro i hi
          simp only [removeLastPop, setCurrentScope]
          exact getD_set_ne _ _ _ _ _ hi
        · exact WFc_setCurrentScope _ _ hwf2
    · exact ⟨d2, c2x, by simp [hpop], hd2, rfl, rfl, fun _ _ => rfl, hwf2⟩
  obtain ⟨d2p, c3, hc3, hcur3, hi3, hl3, ho3, hwf3⟩ := hstrip
  have hlt3 : c3.scopeIndex < c3.scopes.length := WFc_lt hwf3
  -- emit the placeholder OpJump
  have hcur4 : currentInstructions (emit c3 code.OpJump [0]).2 =
      currentInstructions c3 ++ [code.OpJump, 0, 0] :=
    currentInstructions_emit c3 _ _ hlt3
  have hwf4 : WFc (emit c3 code.OpJump [0]).2 :=
    (grows_emit c3 code.OpJump [0] hwf3).1
  have hlt4 := WFc_lt hwf4
  -- emit OpNull
  have hcur5 : currentInstructions
      (emit (emit c3 code.OpJump [0]).2 code.OpNull []).2 =
      currentInstructions (emit c3 code.OpJump [0]).2 ++ [code.OpNull] :=
    currentInstructions_emit _ _ _ hlt4
  have hwf5 : WFc (emit (emit c3 code.OpJump [0]).2 code.OpNull []).2 :=
    (grows_emit _ code.OpNull [] hwf4).1
  have hlt5 := WFc_lt hwf5
  -- the first patch: rewrite the OpJumpNotTruthy operand to the offset of
  -- the OpNull alternative
  have hshape5 : currentInstructions
      (emit (emit c3 code.OpJump [0]).2 code.OpNull []).2 =
      currentInstructions c1 ++ code.OpJumpNotTruthy :: 0 :: 0 ::
        (d2p ++ code.OpJump :: 0 :: 0 :: code.OpNull :: []) := by
    rw [hcur5, hcur4, hcur3, hcurE]
    simp
  have hchg1 := changeOperand_two
    (emit (emit c3 code.OpJump [0]).2 code.OpNull []).2
    (currentInstructions c1) code.OpJumpNotTruthy 0 0
    (d2p ++ code.OpJump :: 0 :: 0 :: code.OpNull :: [])
    ((currentInstructions (emit c3 code.OpJump [0]).2).length : Int)
    hlt5 hshape5 rfl
  obtain ⟨A, hAdef⟩ : ∃ A : Nat,
      (currentInstructions (emit c3 code.OpJump [0]).2).length = A := ⟨_, rfl⟩
  obtain ⟨B, hBdef⟩ : ∃ B : Nat,
      (currentInstructions
        (emit (emit c3 code.OpJump [0]).2 code.OpNull []).2).length = B :=
    ⟨_, rfl⟩
  rw [hAdef] at hchg1
  -- name the two patched scopes
  obtain ⟨S6, hS6⟩ : ∃ S6,
      ({ currentScope (emit (emit c3 code.OpJump [0]).2 code.OpNull []).2 with
         instructions := currentInstructions c1 ++ code.OpJumpNotTruthy ::
           (((A : Int) % 65536) / 256).toNat :: ((A : Int) % 256).toNat ::
           (d2p ++ code.OpJump :: 0 :: 0 :: code.OpNull :: []) } :
        CompilationScope) = S6 := ⟨_, rfl⟩
  rw [hS6] at hchg1
  have hwf6 : WFc (setCurrentScope
      (emit (emit c3 code.OpJump [0]).2 code.OpNull []).2 S6) :=
    WFc_setCurrentScope _ _ hwf5
  have hlt6 := WFc_lt hwf6
  have hcur6 : currentInstructions (setCurrentScope
      (emit (emit c3 code.OpJump [0]).2 code.OpNull []).2 S6) =
      S6.instructions := by
    simp only [currentInstructions]
    rw [currentScope_setCurrentScope _ _ hlt5]
  have hshape6 : currentInstructions (setCurrentScope
      (emit (emit c3 code.OpJump [0]).2 code.OpNull []).2 S6) =
      (currentInstructions c1 ++ code.OpJumpNotTruthy ::
        (((A : Int) % 65536) / 256).toNat :: ((A : Int) % 256).toNat :: d2p)
      ++ code.OpJump :: 0 :: 0 :: [code.OpNull] := by
    rw [hcur6, ← hS6]
    simp
  have hchg2 := changeOperand_two
    (setCurrentScope (emit (emit c3 code.OpJump [0]).2 code.OpNull []).2 S6)
    (currentInstructions c1 ++ code.OpJumpNotTruthy ::
      (((A : Int) % 65536) / 256).toNat :: ((A : Int) % 256).toNat :: d2p)
    code.OpJump 0 0 [code.OpNull] ((B : Int)) hlt6 hshape6 rfl
  have hlenX : (currentInstructions c3).length =
      (currentInstructions c1 ++ code.OpJumpNotTruthy ::
        (((A : Int) % 65536) / 256).toNat :: ((A : Int) % 256).toNat ::
        d2p).length := by
    rw [hcur3, hcurE]
    simp
  -- name the scope produced by the second patch
  obtain ⟨S7, hS7⟩ : ∃ S7,
      ({ currentScope (setCurrentScope
           (emit (emit c3 code.OpJump [0]).2 code.OpNull []).2 S6) with
         instructions := (currentInstructions c1 ++ code.OpJumpNotTruthy ::
           (((A : Int) % 65536) / 256).toNat :: ((A : Int) % 256).toNat ::
           d2p) ++ code.OpJump :: (((B : Int) % 65536) / 256).toNat ::
           ((B : Int) % 256).toNat :: [code.OpNull] } :
        CompilationScope) = S7 := ⟨_, rfl⟩
  rw [hS7] at hchg2
  -- evaluate the compiler on the if expression
  rw [Compile.eq_def] at hok
  simp only [] at hok
  rw [hcond] at hok
  simp only [] at hok
  rw [hcons] at hok
  simp only [Except.ok.injEq] at hok
  -- reduce the none-case tail on the stripped consequence
  have hres : ifNoneTail (emit c1 code.OpJumpNotTruthy [0]).1 c2x =
      changeOperand
        (changeOperand (emit (emit c3 code.OpJump [0]).2 code.OpNull []).2
          (currentInstructions c1).length
          ((currentInstructions (emit c3 code.OpJump [0]).2).length : Int))
        (currentInstructions c3).length
        ((currentInstructions
          (emit (emit c3 code.OpJump [0]).2 code.OpNull []).2).length :
          Int) := by
    simp only [ifNoneTail, emit_fst]
    rw [hc3]
  rw [hres, hAdef, hBdef, hlenX, hchg1, hchg2] at hok
  subst hok
  -- the instruction buffer of the fully patched result
  have hcur7 : currentInstructions (setCurrentScope (setCurrentScope
      (emit (emit c3 code.OpJump [0]).2 code.OpNull []).2 S6) S7) =
      (currentInstructions c1 ++ code.OpJumpNotTruthy ::
        (((A : Int) % 65536) / 256).toNat :: ((A : Int) % 256).toNat :: d2p)
      ++ code.OpJump :: (((B : Int) % 65536) / 256).toNat ::
        ((B : Int) % 256).toNat :: [code.OpNull] := by
    simp only [currentInstructions]
    rw [currentScope_setCurrentScope _ _ hlt6, ← hS7]
    rfl
  have hlast7 : CompilationScope.lastInstruction
      (currentScope (setCurrentScope (setCurrentScope
        (emit (emit c3 code.OpJump [0]).2 code.OpNull []).2 S6) S7)) =
      ⟨code.OpNull, A⟩ := by
    rw [currentScope_setCurrentScope _ _ hlt6, ← hS7]
    show CompilationScope.lastInstruction (currentScope (setCurrentScope
      (emit (emit c3 code.OpJump [0]).2 code.OpNull []).2 S6)) = _
    rw [currentScope_setCurrentScope _ _ hlt5, ← hS6]
    show CompilationScope.lastInstruction
      (currentScope (emit (emit c3 code.OpJump [0]).2 code.OpNull []).2) = _
    rw [currentScope_emit _ _ _ hlt4, hAdef]
  have hprev7 : CompilationScope.previousInstruction
      (currentScope (setCurrentScope (setCurrentScope
        (emit (emit c3 code.OpJump [0]).2 code.OpNull []).2 S6) S7)) =
      ⟨code.OpJump, (currentInstructions c3).length⟩ := by
    rw [currentScope_setCurrentScope _ _ hlt6, ← hS7]
    show CompilationScope.previousInstruction (currentScope (setCurrentScope
      (emit (emit c3 code.OpJump [0]).2 code.OpNull []).2 S6)) = _
    rw [currentScope_setCurrentScope _ _ hlt5, ← hS6]
    show CompilationScope.previousInstruction
      (currentScope (emit (emit c3 code.OpJump [0]).2 code.OpNull []).2) = _
    rw [currentScope_emit _ _ _ hlt4]
    show CompilationScope.lastInstruction
      (currentScope (emit c3 code.OpJump [0]).2) = _
    rw [currentScope_emit _ _ _ hlt3]
  have hlen3 : (currentInstructions c3).length =
      (currentInstructions c1).length + 3 + d2p.length := by
    rw [hcur3, hcurE]
    simp [List.length_append]
    omega
  -- arithmetic on the offsets
  have hA2 : A = (currentInstructions c1).length + 3 + d2p.length + 3 := by
    rw [← hAdef, hcur4, hcur3, hcurE]
    simp [List.length_append]
    omega
  have hB2 : B = A + 1 := by
    rw [← hBdef, hcur5]
    simp [hAdef]
  -- the scope-stack shape is preserved through every step
  have hshp : Shp c1 (setCurrentScope (setCurrentScope
      (emit (emit c3 code.OpJump [0]).2 code.OpNull []).2 S6) S7) :=
    shp_trans (shp_emit c1 code.OpJumpNotTruthy [0])
      (shp_trans ⟨hgi2, hgl2, hgo2⟩
        (shp_trans ⟨hi3, hl3, ho3⟩
          (shp_trans (shp_emit c3 code.OpJump [0])
            (shp_trans (shp_emit (emit c3 code.OpJump [0]).2 code.OpNull [])
              (shp_trans (shp_setCurrentScope _ S6)
                (shp_setCurrentScope _ S7))))))
  have hgT : Grows c1 (setCurrentScope (setCurrentScope
      (emit (emit c3 code.OpJump [0]).2 code.OpNull []).2 S6) S7) := by
    refine ⟨hshp.1, hshp.2.1, hshp.2.2,
      ⟨code.OpJumpNotTruthy :: (((A : Int) % 65536) / 256).toNat ::
        ((A : Int) % 256).toNat :: (d2p ++ code.OpJump ::
        (((B : Int) % 65536) / 256).toNat :: ((B : Int) % 256).toNat ::
        [code.OpNull]), ?_⟩, Or.inr ⟨?_, Or.inr ?_⟩⟩
    · rw [hcur7]
      simp [List.append_assoc]
    · rw [hlast7]
      show (currentInstructions c1).length ≤ A
      omega
    · rw [hprev7]
      show (currentInstructions c1).length ≤ (currentInstructions c3).length
      omega
  refine ⟨WFc_setCurrentScope _ _ hwf6,
    grows_trans ⟨hgi1, hgl1, hgo1, ⟨d1, hd1⟩, hgp1⟩ hgT,
    ⟨d1, d2p, A, B, hd1, ?_, hB2, ?_⟩⟩
  · rw [hA2, hd1]
    simp [List.length_append]
  · rw [hcur7, hd1]
    simp [code.enc, List.append_assoc]

lemma WFc_shp {c c2 : Compiler} (h : WFc c) (hs : Shp c c2) : WFc c2 := by
  show c2.scopeIndex + 1 = c2.scopes.length
  rw [hs.1, hs.2.1]
  exact h

lemma shp_refl (c : Compiler) : Shp c c := ⟨rfl, rfl, fun _ _ => rfl⟩

lemma gw_trans {a b c : Compiler} (h1 : WFc b ∧ Grows a b)
    (h2 : WFc c ∧ Grows b c) : WFc c ∧ Grows a c :=
  ⟨h2.1, grows_trans h1.2 h2.2⟩

lemma getD_take {α : Type} (l : List α) (n i : Nat) (d : α) (h : i < n) :
    (l.take n).getD i d = l.getD i d := by
  induction l generalizing n i with
  | nil => simp
  | cons a rest ih =>
    cases n with
    | zero => omega
    | succ m =>
      cases i with
      | zero => rfl
      | succ j => simpa using ih m j (by omega)

/-- Shape of the conditional OpPop strip applied to a compile result c2x
that grew out of a state E whose last instruction is not OpPop: the
instructions stay an extension of E, the strip keeps the previous
instruction and either keeps the last instruction or replaces it by the
previous one. -/
lemma strip_shape {E c2x : Compiler} (hwf2 : WFc c2x) (hg : Grows E c2x)
    (hop : ¬ (currentScope E).lastInstruction.Opcode = code.OpPop) :
    ∃ dp c3,
      (if lastInstructionIsPop c2x then removeLastPop c2x else c2x) = c3 ∧
      currentInstructions c3 = currentInstructions E ++ dp ∧
      Shp c2x c3 ∧ WFc c3 ∧
      (currentScope c3).previousInstruction =
        (currentScope c2x).previousInstruction ∧
      ((currentScope c3).lastInstruction = (currentScope c2x).lastInstruction
       ∨ (currentScope c2x).lastInstruction.Opcode = code.OpPop ∧
           (currentScope c3).lastInstruction =
             (currentScope c2x).previousInstruction) := by
  obtain ⟨hgi, hgl, hgo, ⟨d2, hd2⟩, hgp⟩ := hg
  by_cases hpop : lastInstructionIsPop c2x
  · have hpopop : (currentScope c2x).lastInstruction.Opcode = code.OpPop := by
      unfold lastInstructionIsPop lastInstructionIs at hpop
      by_cases hz : (currentInstructions c2x).length = 0
      · rw [if_pos hz] at hpop
        simp at hpop
      · rw [if_neg hz] at hpop
        exact of_decide_eq_true hpop
    rcases hgp with ⟨hle, hpe, hli⟩ | ⟨hpos, hprev⟩
    · exact absurd (hle ▸ hpopop) hop
    · refine ⟨(List.take ((currentScope c2x).lastInstruction.Position -
        (currentInstructions E).length) d2), removeLastPop c2x,
        by simp [hpop], ?_, ?_, WFc_setCurrentScope _ _ hwf2, ?_,
        Or.inr ⟨hpopop, ?_⟩⟩
      · simp only [removeLastPop, currentInstructions]
        rw [currentScope_setCurrentScope _ _ (WFc_lt hwf2)]
        show List.take _ (currentScope c2x).instructions = _
        have h2 : (currentScope c2x).instructions = currentInstructions c2x :=
          rfl
        rw [h2, hd2, take_append_of_le _ _ _ hpos]
        rfl
      · exact shp_setCurrentScope _ _
      · simp only [removeLastPop]
        rw [currentScope_setCurrentScope _ _ (WFc_lt hwf2)]
      · simp only [removeLastPop]
        rw [currentScope_setCurrentScope _ _ (WFc_lt hwf2)]
  · exact ⟨d2, c2x, by simp [hpop], hd2, shp_refl c2x, hwf2, rfl, Or.inl rfl⟩

lemma gw_addConstant (c : Compiler) (o : Obj) (h : WFc c) :
    WFc (addConstant c o).2 ∧ Grows c (addConstant c o).2 :=
  ⟨h, grows_of_scopes_eq rfl rfl⟩

lemma gw_letTail (name : String) (c1 : Compiler) (h : WFc c1) :
    WFc (letTail name c1) ∧ Grows c1 (letTail name c1) := by
  simp only [letTail]
  split
  · exact gw_trans ⟨h, grows_of_scopes_eq rfl rfl⟩ (grows_emit _ _ _ h)
  · exact gw_trans ⟨h, grows_of_scopes_eq rfl rfl⟩ (grows_emit _ _ _ h)

lemma gw_infixTail {operator0 : String} {c2 c' : Compiler}
    (hok : infixTail operator0 c2 = .ok c') (h : WFc c2) :
    WFc c' ∧ Grows c2 c' := by
  unfold infixTail at hok
  split_ifs at hok <;> cases hok <;> exact grows_emit _ _ _ h

lemma gw_identArm {name : String} {c c' : Compiler}
    (hok : identArm name c = .ok c') (h : WFc c) :
    WFc c' ∧ Grows c c' := by
  unfold identArm at hok
  rcases hres : sym.Resolve c.symbolTable name with _ | symbol
  · rw [hres] at hok
    simp only [] at hok
    cases hok
  · rw [hres] at hok
    simp only [] at hok
    by_cases hsc : symbol.Scope = GlobalScope
    · rw [if_pos hsc] at hok
      simp only [Except.ok.injEq] at hok
      subst hok
      exact grows_emit _ _ _ h
    · rw [if_neg hsc] at hok
      simp only [Except.ok.injEq] at hok
      subst hok
      exact grows_emit _ _ _ h

/-- The function-literal tail leaves the scope stack exactly as it was
before enterScope, with only the OpConstant load appended to the enclosing
scope. -/
lemma gw_fnTail {c c2 : Compiler} (hwf : WFc c) (hwf2 : WFc c2)
    (hg : Grows (enterScope c) c2) :
    WFc (fnTail c2) ∧ Grows c (fnTail c2) := by
  have hidx0 : c.scopeIndex + 1 = c.scopes.length := hwf
  have hgi : c2.scopeIndex = c.scopeIndex + 1 := hg.1
  have hgl : c2.scopes.length = c.scopes.length + 1 := by
    have h := hg.2.1
    simpa [enterScope] using h
  have hgo : ∀ i, i ≠ c.scopeIndex + 1 →
      c2.scopes.getD i emptyScope =
      (c.scopes ++ [emptyScope]).getD i emptyScope := hg.2.2.1
  simp only [fnTail]
  obtain ⟨c3, hc3⟩ : ∃ x,
      (if lastInstructionIsPop c2 then replaceLastPopWithReturn c2
       else c2) = x := ⟨_, rfl⟩
  rw [hc3]
  have hshp3 : Shp c2 c3 := by
    rw [← hc3]
    split
    · exact shp_trans (shp_setCurrentScope _ _) (shp_setCurrentScope _ _)
    · exact shp_refl _
  obtain ⟨c4, hc4⟩ : ∃ x,
      (if lastInstructionIs c3 code.OpReturnValue then c3
       else (emit c3 code.OpReturn []).2) = x := ⟨_, rfl⟩
  rw [hc4]
  have hshp4 : Shp c2 c4 := by
    rw [← hc4]
    split
    · exact hshp3
    · exact shp_trans hshp3 (shp_emit _ _ _)
  have hi4 : c4.scopeIndex = c.scopeIndex + 1 := hshp4.1.trans hgi
  have hl4 : c4.scopes.length = c.scopes.length + 1 := hshp4.2.1.trans hgl
  have ho4 : ∀ i, i ≠ c.scopeIndex + 1 →
      c4.scopes.getD i emptyScope = c2.scopes.getD i emptyScope := by
    intro i hi
    exact hshp4.2.2 i (by rw [hgi]; exact hi)
  obtain ⟨L, hLdef⟩ : ∃ x, (leaveScope c4).2 = x := ⟨_, rfl⟩
  rw [hLdef]
  have hLs : L.scopes = c4.scopes.take (c4.scopes.length - 1) := by
    rw [← hLdef]
    rfl
  have hLi : L.scopeIndex = c.scopeIndex := by
    rw [← hLdef]
    show c4.scopeIndex - 1 = c.scopeIndex
    omega
  have hLl : L.scopes.length = c.scopes.length := by
    rw [hLs]
    simp
    omega
  have hgetD : ∀ i, i < c.scopes.length →
      L.scopes.getD i emptyScope = c.scopes.getD i emptyScope := by
    intro i hlt
    rw [hLs]
    have h1 : c4.scopes.length - 1 = c.scopes.length := by omega
    rw [h1, getD_take _ _ _ _ hlt, ho4 i (by omega), hgo i (by omega),
      getD_append_lt _ _ _ _ hlt]
  have hcsL : currentScope L = currentScope c := by
    show L.scopes.getD L.scopeIndex emptyScope = _
    rw [hLi, hgetD c.scopeIndex (by omega)]
    rfl
  have hwfL : WFc L := by
    show L.scopeIndex + 1 = L.scopes.length
    rw [hLi, hLl]
    exact hwf
  obtain ⟨K, hK⟩ : ∃ x,
      Obj.compiledFunction ⟨(leaveScope c4).1,
        sym.numDefinitions c4.symbolTable, 0⟩ = x := ⟨_, rfl⟩
  rw [hK]
  obtain ⟨D, hDdef⟩ : ∃ x, (addConstant L K).2 = x := ⟨_, rfl⟩
  obtain ⟨O, hOdef⟩ : ∃ x, [((addConstant L K).1 : Int)] = x := ⟨_, rfl⟩
  rw [hDdef, hOdef]
  have hDi : D.scopeIndex = L.scopeIndex := by
    rw [← hDdef]
    rfl
  have hDs : D.scopes = L.scopes := by
    rw [← hDdef]
    rfl
  have hcsD : currentScope D = currentScope c := by
    show D.scopes.getD D.scopeIndex emptyScope = _
    rw [hDi, hDs]
    exact hcsL
  have hwfD : WFc D := by
    show D.scopeIndex + 1 = D.scopes.length
    rw [hDi, hDs]
    exact hwfL
  have hltD := WFc_lt hwfD
  have hiD : currentInstructions D = currentInstructions c := by
    show (currentScope D).instructions = _
    rw [hcsD]
    rfl
  have hshpR : Shp D (emit D code.OpConstant O).2 := shp_emit _ _ _
  have hRl : (emit D code.OpConstant O).2.scopes.length = c.scopes.length := by
    rw [hshpR.2.1, hDs, hLl]
  have hcsR := currentScope_emit D code.OpConstant O hltD
  refine ⟨(grows_emit _ code.OpConstant _ hwfD).1, ?_, hRl, ?_,
    ⟨code.Make code.OpConstant O, ?_⟩, Or.inr ⟨?_, Or.inl ?_⟩⟩
  · rw [hshpR.1, hDi, hLi]
  · intro i hi
    by_cases hlt : i < c.scopes.length
    · rw [hshpR.2.2 i (by rw [hDi, hLi]; exact hi)]
      rw [hDs, hgetD i hlt]
    · rw [getD_eq_default_of_le _ _ _ (by omega),
        getD_eq_default_of_le _ _ _ (by omega)]
  · rw [currentInstructions_emit _ _ _ hltD, hiD]
  · rw [hcsR]
    show (currentInstructions c).length ≤ (currentInstructions D).length
    rw [hiD]
  · rw [hcsR]
    show (currentScope D).lastInstruction = _
    rw [hcsD]

set_option maxHeartbeats 2000000 in
/-- The if-expression tail with an alternative preserves well-formedness
and grows the current scope, for every outcome of the two strips and the
two operand patches. -/
lemma gw_ifSomeTail {c c1 c2x c5x : Compiler} (hwf : WFc c)
    (g1 : WFc c1 ∧ Grows c c1)
    (g2 : WFc c2x ∧ Grows (emit c1 code.OpJumpNotTruthy [0]).2 c2x)
    (g3 : WFc c5x ∧ Grows (emit
      (if lastInstructionIsPop c2x then removeLastPop c2x else c2x)
      code.OpJump [0]).2 c5x) :
    WFc (ifSomeTail (emit c1 code.OpJumpNotTruthy [0]).1
      (emit (if lastInstructionIsPop c2x then removeLastPop c2x else c2x)
        code.OpJump [0]).1
      (currentInstructions (emit
        (if lastInstructionIsPop c2x then removeLastPop c2x else c2x)
        code.OpJump [0]).2).length c5x) ∧
    Grows c (ifSomeTail (emit c1 code.OpJumpNotTruthy [0]).1
      (emit (if lastInstructionIsPop c2x then removeLastPop c2x else c2x)
        code.OpJump [0]).1
      (currentInstructions (emit
        (if lastInstructionIsPop c2x then removeLastPop c2x else c2x)
        code.OpJump [0]).2).length c5x) := by
  obtain ⟨hwf1, hg1⟩ := g1
  obtain ⟨hwf2, hg2⟩ := g2
  obtain ⟨hwf5, hg5⟩ := g3
  have hlt1 := WFc_lt hwf1
  have hcurE1 : currentInstructions (emit c1 code.OpJumpNotTruthy [0]).2 =
      currentInstructions c1 ++ [code.OpJumpNotTruthy, 0, 0] :=
    currentInstructions_emit c1 _ _ hlt1
  have hlastE1 :
      CompilationScope.lastInstruction
        (currentScope (emit c1 code.OpJumpNotTruthy [0]).2) =
      ⟨code.OpJumpNotTruthy, (currentInstructions c1).length⟩ := by
    rw [currentScope_emit _ _ _ hlt1]
  have hopE1 : ¬ (currentScope
      (emit c1 code.OpJumpNotTruthy [0]).2).lastInstruction.Opcode =
      code.OpPop := by
    rw [hlastE1]
    simp [code.OpJumpNotTruthy, code.OpPop]
  obtain ⟨d2p, c3, hc3, hcur3, hshp3, hwf3, hprev3, hlast3⟩ :=
    strip_shape hwf2 hg2 hopE1
  rw [hc3] at hg5 ⊢
  have hlt3 := WFc_lt hwf3
  have hcurE2 : currentInstructions (emit c3 code.OpJump [0]).2 =
      currentInstructions c3 ++ [code.OpJump, 0, 0] :=
    currentInstructions_emit c3 _ _ hlt3
  have hlastE2 :
      CompilationScope.lastInstruction
        (currentScope (emit c3 code.OpJump [0]).2) =
      ⟨code.OpJump, (currentInstructions c3).length⟩ := by
    rw [currentScope_emit _ _ _ hlt3]
  have hprevE2 :
      CompilationScope.previousInstruction
        (currentScope (emit c3 code.OpJump [0]).2) =
      (currentScope c3).lastInstruction := by
    rw [currentScope_emit _ _ _ hlt3]
  have hopE2 : ¬ (currentScope
      (emit c3 code.OpJump [0]).2).lastInstruction.Opcode =
      code.OpPop := by
    rw [hlastE2]
    simp [code.OpJump, code.OpPop]
  obtain ⟨d3p, c6, hc6, hcur6, hshp6, hwf6, hprev6, hlast6⟩ :=
    strip_shape hwf5 hg5 hopE2
  have hlt6 := WFc_lt hwf6
  -- length bookkeeping
  have hlen3 : (currentInstructions c3).length =
      (currentInstructions c1).length + 3 + d2p.length := by
    rw [hcur3, hcurE1]
    simp [List.length_append]
    omega
  have hlenE2 :
      (currentInstructions (emit c3 code.OpJump [0]).2).length =
      (currentInstructions c3).length + 3 := by
    rw [hcurE2]
    simp
  -- reduce the tail to the two explicit patches
  have hres : ifSomeTail (emit c1 code.OpJumpNotTruthy [0]).1
      (emit c3 code.OpJump [0]).1
      (currentInstructions (emit c3 code.OpJump [0]).2).length c5x =
      changeOperand
        (changeOperand c6 (currentInstructions c1).length
          ((currentInstructions (emit c3 code.OpJump [0]).2).length : Int))
        (currentInstructions c3).length
        ((currentInstructions c6).length : Int) := by
    simp only [ifSomeTail, emit_fst]
    rw [hc6]
  -- the first patch rewrites the OpJumpNotTruthy placeholder
  have hshape : currentInstructions c6 =
      currentInstructions c1 ++ code.OpJumpNotTruthy :: 0 :: 0 ::
        (d2p ++ code.OpJump :: 0 :: 0 :: d3p) := by
    rw [hcur6, hcurE2, hcur3, hcurE1]
    simp
  have hchg1 := changeOperand_two c6 (currentInstructions c1)
    code.OpJumpNotTruthy 0 0 (d2p ++ code.OpJump :: 0 :: 0 :: d3p)
    ((currentInstructions (emit c3 code.OpJump [0]).2).length : Int)
    hlt6 hshape rfl
  obtain ⟨S6, hS6⟩ : ∃ S6,
      ({ currentScope c6 with
         instructions := currentInstructions c1 ++ code.OpJumpNotTruthy ::
           ((((currentInstructions (emit c3 code.OpJump [0]).2).length :
               Int) % 65536) / 256).toNat ::
           (((currentInstructions (emit c3 code.OpJump [0]).2).length :
               Int) % 256).toNat ::
           (d2p ++ code.OpJump :: 0 :: 0 :: d3p) } :
        CompilationScope) = S6 := ⟨_, rfl⟩
  rw [hS6] at hchg1
  have hwfY : WFc (setCurrentScope c6 S6) := WFc_setCurrentScope _ _ hwf6
  have hltY := WFc_lt hwfY
  have hcurY : currentInstructions (setCurrentScope c6 S6) =
      S6.instructions := by
    simp only [currentInstructions]
    rw [currentScope_setCurrentScope _ _ hlt6]
  have hshapeY : currentInstructions (setCurrentScope c6 S6) =
      (currentInstructions c1 ++ code.OpJumpNotTruthy ::
        ((((currentInstructions (emit c3 code.OpJump [0]).2).length :
            Int) % 65536) / 256).toNat ::
        (((currentInstructions (emit c3 code.OpJump [0]).2).length :
            Int) % 256).toNat :: d2p) ++
      code.OpJump :: 0 :: 0 :: d3p := by
    rw [hcurY, ← hS6]
    simp
  have hlenX : (currentInstructions c3).length =
      (currentInstructions c1 ++ code.OpJumpNotTruthy ::
        ((((currentInstructions (emit c3 code.OpJump [0]).2).length :
            Int) % 65536) / 256).toNat ::
        (((currentInstructions (emit c3 code.OpJump [0]).2).length :
            Int) % 256).toNat :: d2p).length := by
    rw [hlen3]
    simp [List.length_append]
    omega
  have hchg2 := changeOperand_two (setCurrentScope c6 S6)
    (currentInstructions c1 ++ code.OpJumpNotTruthy ::
      ((((currentInstructions (emit c3 code.OpJump [0]).2).length :
          Int) % 65536) / 256).toNat ::
      (((currentInstructions (emit c3 code.OpJump [0]).2).length :
          Int) % 256).toNat :: d2p)
    code.OpJump 0 0 d3p ((currentInstructions c6).length : Int)
    hltY hshapeY rfl
  obtain ⟨S7, hS7⟩ : ∃ S7,
      ({ currentScope (setCurrentScope c6 S6) with
         instructions := (currentInstructions c1 ++ code.OpJumpNotTruthy ::
           ((((currentInstructions (emit c3 code.OpJump [0]).2).length :
               Int) % 65536) / 256).toNat ::
           (((currentInstructions (emit c3 code.OpJump [0]).2).length :
               Int) % 256).toNat :: d2p) ++
           code.OpJump ::
           ((((currentInstructions c6).length : Int) % 65536) / 256).toNat ::
           (((currentInstructions c6).length : Int) % 256).toNat ::
           d3p } : CompilationScope) = S7 := ⟨_, rfl⟩
  rw [hS7] at hchg2
  rw [hres, hlenX, hchg1, hchg2]
  -- the patched result: instructions, last and previous instruction
  have hcurZ : currentInstructions
      (setCurrentScope (setCurrentScope c6 S6) S7) = S7.instructions := by
    simp only [currentInstructions]
    rw [currentScope_setCurrentScope _ _ hltY]
  have hlastZ : CompilationScope.lastInstruction
      (currentScope (setCurrentScope (setCurrentScope c6 S6) S7)) =
      (currentScope c6).lastInstruction := by
    rw [currentScope_setCurrentScope _ _ hltY, ← hS7]
    show CompilationScope.lastInstruction
      (currentScope (setCurrentScope c6 S6)) = _
    rw [currentScope_setCurrentScope _ _ hlt6, ← hS6]
  have hprevZ : CompilationScope.previousInstruction
      (currentScope (setCurrentScope (setCurrentScope c6 S6) S7)) =
      (currentScope c6).previousInstruction := by
    rw [currentScope_setCurrentScope _ _ hltY, ← hS7]
    show CompilationScope.previousInstruction
      (currentScope (setCurrentScope c6 S6)) = _
    rw [currentScope_setCurrentScope _ _ hlt6, ← hS6]
  -- bounds for the recorded last and previous instruction
  obtain ⟨hgi2, hgl2, hgo2, ⟨d2, hd2⟩, hgp2⟩ := hg2
  obtain ⟨hgi5, hgl5, hgo5, ⟨d5, hd5⟩, hgp5⟩ := hg5
  have hlast3pos : (currentInstructions c1).length ≤
      (currentScope c3).lastInstruction.Position := by
    rcases hlast3 with h3 | ⟨h3pop, h3⟩
    · rcases hgp2 with ⟨hle, hpe, hli⟩ | ⟨hpos, hprev⟩
      · rw [h3, hle, hlastE1]
      · rw [h3]
        calc (currentInstructions c1).length ≤
            (currentInstructions
              (emit c1 code.OpJumpNotTruthy [0]).2).length := by
              rw [hcurE1]; simp
          _ ≤ _ := hpos
    · rcases hgp2 with ⟨hle, hpe, hli⟩ | ⟨hpos, hprev⟩
      · exfalso
        rw [hle, hlastE1] at h3pop
        simp [code.OpJumpNotTruthy, code.OpPop] at h3pop
      · rcases hprev with hp | hp
        · rw [h3, hp, hlastE1]
        · rw [h3]
          calc (currentInstructions c1).length ≤
              (currentInstructions
                (emit c1 code.OpJumpNotTruthy [0]).2).length := by
                rw [hcurE1]; simp
            _ ≤ _ := hp
  have hlast6pos : (currentInstructions c1).length ≤
      (currentScope c6).lastInstruction.Position := by
    rcases hlast6 with h6 | ⟨h6pop, h6⟩
    · rcases hgp5 with ⟨hle, hpe, hli⟩ | ⟨hpos, hprev⟩
      · rw [h6, hle, hlastE2]
        show (currentInstructions c1).length ≤
          (currentInstructions c3).length
        omega
      · rw [h6]
        calc (currentInstructions c1).length ≤
            (currentInstructions (emit c3 code.OpJump [0]).2).length := by
              omega
          _ ≤ _ := hpos
    · rcases hgp5 with ⟨hle, hpe, hli⟩ | ⟨hpos, hprev⟩
      · exfalso
        rw [hle, hlastE2] at h6pop
        simp [code.OpJump, code.OpPop] at h6pop
      · rcases hprev with hp | hp
        · rw [h6, hp, hlastE2]
          show (currentInstructions c1).length ≤
            (currentInstructions c3).length
          omega
        · rw [h6]
          calc (currentInstructions c1).length ≤
              (currentInstructions (emit c3 code.OpJump [0]).2).length := by
                omega
            _ ≤ _ := hp
  have hprev6pos : (currentInstructions c1).length ≤
      (currentScope c6).previousInstruction.Position := by
    rw [hprev6]
    rcases hgp5 with ⟨hle, hpe, hli⟩ | ⟨hpos, hprev⟩
    · rw [hpe, hprevE2]
      exact hlast3pos
    · rcases hprev with hp | hp
      · rw [hp, hlastE2]
        show (currentInstructions c1).length ≤
          (currentInstructions c3).length
        omega
      · calc (currentInstructions c1).length ≤
            (currentInstructions (emit c3 code.OpJump [0]).2).length := by
              omega
          _ ≤ _ := hp
  -- assemble
  have hshpZ : Shp c1 (setCurrentScope (setCurrentScope c6 S6) S7) :=
    shp_trans (shp_emit c1 code.OpJumpNotTruthy [0])
      (shp_trans ⟨hgi2, hgl2, hgo2⟩
        (shp_trans hshp3
          (shp_trans (shp_emit c3 code.OpJump [0])
            (shp_trans ⟨hgi5, hgl5, hgo5⟩
              (shp_trans hshp6
                (shp_trans (shp_setCurrentScope _ S6)
                  (shp_setCurrentScope _ S7)))))))
  refine ⟨WFc_setCurrentScope _ _ hwfY, grows_trans hg1 ?_⟩
  refine ⟨hshpZ.1, hshpZ.2.1, hshpZ.2.2,
    ⟨code.OpJumpNotTruthy ::
      ((((currentInstructions (emit c3 code.OpJump [0]).2).length :
          Int) % 65536) / 256).toNat ::
      (((currentInstructions (emit c3 code.OpJump [0]).2).length :
          Int) % 256).toNat ::
      (d2p ++ code.OpJump ::
        ((((currentInstructions c6).length : Int) % 65536) / 256).toNat ::
        (((currentInstructions c6).length : Int) % 256).toNat :: d3p),
      ?_⟩, Or.inr ⟨?_, Or.inr ?_⟩⟩
  · rw [hcurZ, ← hS7]
    simp [List.append_assoc]
  · rw [hlastZ]
    exact hlast6pos
  · rw [hprevZ]
    exact hprev6pos

set_option maxHeartbeats 4000000 in
/-- Every successful compile preserves well-formedness of the scope stack
and only appends to the current scope's instruction buffer. -/
lemma compile_grows : ∀ (n : Ast) (c c' : Compiler),
    Compile n c = .ok c' → WFc c → WFc c' ∧ Grows c c' := by
  have H : ∀ (n : Ast) (c : Compiler), ∀ c',
      Compile n c = .ok c' → WFc c → WFc c' ∧ Grows c c' := by
    apply Compile.induct
      (fun n c => ∀ c', Compile n c = .ok c' → WFc c → WFc c' ∧ Grows c c')
      (fun ps c => ∀ c', compilePairs ps c = .ok c' → WFc c →
        WFc c' ∧ Grows c c')
      (fun l c => ∀ c', compileList l c = .ok c' → WFc c →
        WFc c' ∧ Grows c c')
    · -- program
      intro stmts c ih c' hok hw
      rw [Compile.eq_def] at hok
      simp only [] at hok
      exact ih c' hok hw
    · -- blockStmt
      intro stmts c ih c' hok hw
      rw [Compile.eq_def] at hok
      simp only [] at hok
      exact ih c' hok hw
    · -- exprStmt, inner error
      intro e c msg herr ih c' hok hw
      rw [Compile.eq_def] at hok
      simp only [] at hok
      rw [herr] at hok
      simp only [] at hok
      cases hok
    · -- exprStmt, ok
      intro e c c1 hok1 ih c' hok hw
      rw [Compile.eq_def] at hok
      simp only [] at hok
      rw [hok1] at hok
      simp only [Except.ok.injEq] at hok
      subst hok
      exact gw_trans (ih c1 hok1 hw) (grows_emit c1 code.OpPop []
        (ih c1 hok1 hw).1)
    · -- if-none, condition error
      intro cond cons c msg herr ih c' hok hw
      rw [Compile.eq_def] at hok
      simp only [] at hok
      rw [herr] at hok
      simp only [] at hok
      cases hok
    · -- if-none, consequence error
      intro cond cons c c1 hok1 r1 msg herr ih1 ih2 c' hok hw
      have herr' : Compile cons (emit c1 code.OpJumpNotTruthy [0]).2 =
          .error msg := herr
      rw [Compile.eq_def] at hok
      simp only [] at hok
      rw [hok1] at hok
      simp only [] at hok
      rw [herr'] at hok
      simp only [] at hok
      cases hok
    · -- if-none, ok: full layout lemma
      intro cond cons c c1 hok1 r1 c2x hok2 ih1 ih2 c' hok hw
      have hok2' : Compile cons (emit c1 code.OpJumpNotTruthy [0]).2 =
          .ok c2x := hok2
      have g1 := ih1 c1 hok1 hw
      have hE := grows_emit c1 code.OpJumpNotTruthy [0] g1.1
      have g2 := ih2 c2x hok2 hE.1
      have h := ifnone_layout cond cons c c1 c2x hw hok1 hok2' g1
        ⟨g2.1, g2.2⟩ c' hok
      exact ⟨h.1, h.2.1⟩
    · -- if-some, condition error
      intro cond cons altNode c msg herr ih c' hok hw
      rw [Compile.eq_def] at hok
      simp only [] at hok
      rw [herr] at hok
      simp only [] at hok
      cases hok
    · -- if-some, consequence error
      intro cond cons altNode c c1 hok1 r1 msg herr ih1 ih2 c' hok hw
      have herr' : Compile cons (emit c1 code.OpJumpNotTruthy [0]).2 =
          .error msg := herr
      rw [Compile.eq_def] at hok
      simp only [] at hok
      rw [hok1] at hok
      simp only [] at hok
      rw [herr'] at hok
      simp only [] at hok
      cases hok
    · -- if-some, alternative error
      intro cond cons altNode c c1 hok1 r1 c2x hok2 c3 r2 msg herr
        ih1 ih2 ih3 c' hok hw
      have hok2' : Compile cons (emit c1 code.OpJumpNotTruthy [0]).2 =
          .ok c2x := hok2
      have herr' : Compile altNode (emit
          (if lastInstructionIsPop c2x then removeLastPop c2x else c2x)
          code.OpJump [0]).2 = .error msg := herr
      rw [Compile.eq_def] at hok
      simp only [] at hok
      rw [hok1] at hok
      simp only [] at hok
      rw [hok2'] at hok
      simp only [] at hok
      rw [herr'] at hok
      simp only [] at hok
      cases hok
    · -- if-some, ok
      intro cond cons altNode c c1 hok1 r1 c2x hok2 c3 r2 c5x hok3
        ih1 ih2 ih3 c' hok hw
      have hok2' : Compile cons (emit c1 code.OpJumpNotTruthy [0]).2 =
          .ok c2x := hok2
      have hok3' : Compile altNode (emit
          (if lastInstructionIsPop c2x then removeLastPop c2x else c2x)
          code.OpJump [0]).2 = .ok c5x := hok3
      have g1 := ih1 c1 hok1 hw
      have hE := grows_emit c1 code.OpJumpNotTruthy [0] g1.1
      have g2 := ih2 c2x hok2 hE.1
      have hwf3 : WFc (if lastInstructionIsPop c2x then removeLastPop c2x
          else c2x) := by
        split
        · exact WFc_setCurrentScope _ _ g2.1
        · exact g2.1
      have hE2 := grows_emit
        (if lastInstructionIsPop c2x then removeLastPop c2x else c2x)
        code.OpJump [0] hwf3
      have g3' : WFc c5x ∧ Grows (emit
          (if lastInstructionIsPop c2x then removeLastPop c2x else c2x)
          code.OpJump [0]).2 c5x := ih3 c5x hok3 hE2.1
      rw [Compile.eq_def] at hok
      simp only [] at hok
      rw [hok1] at hok
      simp only [] at hok
      rw [hok2'] at hok
      simp only [] at hok
      rw [hok3'] at hok
      simp only [Except.ok.injEq] at hok
      subst hok
      exact gw_ifSomeTail hw g1 ⟨g2.1, g2.2⟩ g3'
    · -- fnLit, body error
      intro _params body c msg herr ih c' hok hw
      rw [Compile.eq_def] at hok
      simp only [] at hok
      rw [herr] at hok
      simp only [] at hok
      cases hok
    · -- fnLit, ok
      intro _params body c c2 hokb ih c' hok hw
      have hwE : WFc (enterScope c) := by
        show (enterScope c).scopeIndex + 1 = (enterScope c).scopes.length
        have h0 : c.scopeIndex + 1 = c.scopes.length := hw
        simp [enterScope]
        omega
      have g := ih c2 hokb hwE
      rw [Compile.eq_def] at hok
      simp only [] at hok
      rw [hokb] at hok
      simp only [Except.ok.injEq] at hok
      subst hok
      exact gw_fnTail hw g.1 g.2
    · -- returnStmt, inner error
      intro v c msg herr ih c' hok hw
      rw [Compile.eq_def] at hok
      simp only [] at hok
      rw [herr] at hok
      simp only [] at hok
      cases hok
    · -- returnStmt, ok
      intro v c c1 hok1 ih c' hok hw
      rw [Compile.eq_def] at hok
      simp only [] at hok
      rw [hok1] at hok
      simp only [Except.ok.injEq] at hok
      subst hok
      exact gw_trans (ih c1 hok1 hw) (grows_emit c1 code.OpReturnValue []
        (ih c1 hok1 hw).1)
    · -- callExpr, callee error
      intro f _args c msg herr ih c' hok hw
      rw [Compile.eq_def] at hok
      simp only [] at hok
      rw [herr] at hok
      simp only [] at hok
      cases hok
    · -- callExpr, ok
      intro f _args c c1 hok1 ih c' hok hw
      rw [Compile.eq_def] at hok
      simp only [] at hok
      rw [hok1] at hok
      simp only [Except.ok.injEq] at hok
      subst hok
      exact gw_trans (ih c1 hok1 hw) (grows_emit c1 code.OpCall []
        (ih c1 hok1 hw).1)
    · -- letStmt, value error
      intro name value c msg herr ih c' hok hw
      rw [Compile.eq_def] at hok
      simp only [] at hok
      rw [herr] at hok
      simp only [] at hok
      cases hok
    · -- letStmt, ok
      intro name value c c1 hok1 ih c' hok hw
      rw [Compile.eq_def] at hok
      simp only [] at hok
      rw [hok1] at hok
      simp only [Except.ok.injEq] at hok
      subst hok
      exact gw_trans (ih c1 hok1 hw) (gw_letTail name c1 (ih c1 hok1 hw).1)
    · -- infix <, right error
      intro left0 right0 c msg herr ih c' hok hw
      rw [Compile.eq_def] at hok
      simp only [eq_self_iff_true, if_true] at hok
      rw [herr] at hok
      simp only [] at hok
      cases hok
    · -- infix <, left error
      intro left0 right0 c c1 hokr msg herr ihR ihL c' hok hw
      rw [Compile.eq_def] at hok
      simp only [eq_self_iff_true, if_true] at hok
      rw [hokr] at hok
      simp only [] at hok
      rw [herr] at hok
      simp only [] at hok
      cases hok
    · -- infix <, ok
      intro left0 right0 c c1 hokr c2 hokl ihR ihL c' hok hw
      have g1 := ihR c1 hokr hw
      have g2 := ihL c2 hokl g1.1
      rw [Compile.eq_def] at hok
      simp only [eq_self_iff_true, if_true] at hok
      rw [hokr] at hok
      simp only [] at hok
      rw [hokl] at hok
      simp only [Except.ok.injEq] at hok
      subst hok
      exact gw_trans g1 (gw_trans g2
        (grows_emit c2 code.OpGreaterThan [] g2.1))
    · -- infix other, left error
      intro operator0 left0 right0 c hne msg herr ihL c' hok hw
      rw [Compile.eq_def] at hok
      simp only [] at hok
      rw [if_neg hne] at hok
      rw [herr] at hok
      simp only [] at hok
      cases hok
    · -- infix other, right error
      intro operator0 left0 right0 c hne c1 hokl msg herr ihL ihR c' hok hw
      rw [Compile.eq_def] at hok
      simp only [] at hok
      rw [if_neg hne] at hok
      rw [hokl] at hok
      simp only [] at hok
      rw [herr] at hok
      simp only [] at hok
      cases hok
    · -- infix other, ok
      intro operator0 left0 right0 c hne c1 hokl c2 hokr ihL ihR c' hok hw
      have g1 := ihL c1 hokl hw
      have g2 := ihR c2 hokr g1.1
      rw [Compile.eq_def] at hok
      simp only [] at hok
      rw [if_neg hne] at hok
      rw [hokl] at hok
      simp only [] at hok
      rw [hokr] at hok
      simp only [] at hok
      exact gw_trans g1 (gw_trans g2 (gw_infixTail hok g2.1))
    · -- prefix, inner error
      intro operator value c msg herr ih c' hok hw
      rw [Compile.eq_def] at hok
      simp only [] at hok
      rw [herr] at hok
      simp only [] at hok
      cases hok
    · -- prefix minus, ok
      intro value c c1 hok1 ih c' hok hw
      have g1 := ih c1 hok1 hw
      rw [Compile.eq_def] at hok
      simp only [] at hok
      rw [hok1] at hok
      simp only [eq_self_iff_true, if_true, Except.ok.injEq] at hok
      subst hok
      exact gw_trans g1 (grows_emit c1 code.OpMinus [] g1.1)
    · -- prefix bang, ok
      intro value c c1 hok1 hne ih c' hok hw
      have g1 := ih c1 hok1 hw
      rw [Compile.eq_def] at hok
      simp only [] at hok
      rw [hok1] at hok
      simp only [] at hok
      rw [if_neg hne] at hok
      simp only [eq_self_iff_true, if_true, Except.ok.injEq] at hok
      subst hok
      exact gw_trans g1 (grows_emit c1 code.OpBang [] g1.1)
    · -- prefix unknown operator
      intro operator value c c1 hok1 hne1 hne2 ih c' hok hw
      rw [Compile.eq_def] at hok
      simp only [] at hok
      rw [hok1] at hok
      simp only [] at hok
      rw [if_neg hne1, if_neg hne2] at hok
      cases hok
    · -- arrayLit, elements error
      intro elems c msg herr ihL c' hok hw
      rw [Compile.eq_def] at hok
      simp only [] at hok
      rw [herr] at hok
      simp only [] at hok
      cases hok
    · -- arrayLit, ok
      intro elems c c1 hok1 ihL c' hok hw
      have g1 := ihL c1 hok1 hw
      rw [Compile.eq_def] at hok
      simp only [] at hok
      rw [hok1] at hok
      simp only [Except.ok.injEq] at hok
      subst hok
      exact gw_trans g1 (grows_emit c1 code.OpArray _ g1.1)
    · -- hashLit, pairs error
      intro pairs c msg herr ihP c' hok hw
      rw [Compile.eq_def] at hok
      simp only [] at hok
      rw [herr] at hok
      simp only [] at hok
      cases hok
    · -- hashLit, ok
      intro pairs c c1 hok1 ihP c' hok hw
      have g1 := ihP c1 hok1 hw
      rw [Compile.eq_def] at hok
      simp only [] at hok
      rw [hok1] at hok
      simp only [Except.ok.injEq] at hok
      subst hok
      exact gw_trans g1 (grows_emit c1 code.OpHash _ g1.1)
    · -- indexExpr, left error
      intro l i c msg herr ih c' hok hw
      rw [Compile.eq_def] at hok
      simp only [] at hok
      rw [herr] at hok
      simp only [] at hok
      cases hok
    · -- indexExpr, index error
      intro l i c c1 hok1 msg herr ih1 ih2 c' hok hw
      rw [Compile.eq_def] at hok
      simp only [] at hok
      rw [hok1] at hok
      simp only [] at hok
      rw [herr] at hok
      simp only [] at hok
      cases hok
    · -- indexExpr, ok
      intro l i c c1 hok1 c2 hok2 ih1 ih2 c' hok hw
      have g1 := ih1 c1 hok1 hw
      have g2 := ih2 c2 hok2 g1.1
      rw [Compile.eq_def] at hok
      simp only [] at hok
      rw [hok1] at hok
      simp only [] at hok
      rw [hok2] at hok
      simp only [Except.ok.injEq] at hok
      subst hok
      exact gw_trans g1 (gw_trans g2 (grows_emit c2 code.OpIndex [] g2.1))
    · -- identExpr
      intro name c c' hok hw
      rw [Compile.eq_def] at hok
      simp only [] at hok
      exact gw_identArm hok hw
    · -- intLit
      intro v c c' hok hw
      rw [Compile.eq_def] at hok
      simp only [Except.ok.injEq] at hok
      subst hok
      exact gw_trans (gw_addConstant c (Obj.integer v) hw)
        (grows_emit _ code.OpConstant _ (gw_addConstant c
          (Obj.integer v) hw).1)
    · -- boolLit true
      intro c c' hok hw
      rw [Compile.eq_def] at hok
      simp only [if_true, Except.ok.injEq] at hok
      subst hok
      exact grows_emit c code.OpTrue [] hw
    · -- boolLit false
      intro v c hne c' hok hw
      rw [Compile.eq_def] at hok
      simp only [] at hok
      rw [if_neg hne] at hok
      simp only [Except.ok.injEq] at hok
      subst hok
      exact grows_emit c code.OpFalse [] hw
    · -- strLit
      intro v c c' hok hw
      rw [Compile.eq_def] at hok
      simp only [Except.ok.injEq] at hok
      subst hok
      exact gw_trans (gw_addConstant c (Obj.strObj v) hw)
        (grows_emit _ code.OpConstant _ (gw_addConstant c
          (Obj.strObj v) hw).1)
    · -- compileList []
      intro c c' hok hw
      rw [compileList.eq_def] at hok
      simp only [Except.ok.injEq] at hok
      subst hok
      exact ⟨hw, grows_refl c⟩
    · -- compileList cons, head error
      intro s rest c msg herr ih c' hok hw
      rw [compileList.eq_def] at hok
      simp only [] at hok
      rw [herr] at hok
      simp only [] at hok
      cases hok
    · -- compileList cons, ok
      intro s rest c c1 hok1 ih1 ih2 c' hok hw
      have g1 := ih1 c1 hok1 hw
      rw [compileList.eq_def] at hok
      simp only [] at hok
      rw [hok1] at hok
      simp only [] at hok
      exact gw_trans g1 (ih2 c' hok g1.1)
    · -- compilePairs []
      intro c c' hok hw
      rw [compilePairs.eq_def] at hok
      simp only [Except.ok.injEq] at hok
      subst hok
      exact ⟨hw, grows_refl c⟩
    · -- compilePairs cons, key error
      intro k v rest c msg herr ih c' hok hw
      rw [compilePairs.eq_def] at hok
      simp only [] at hok
      rw [herr] at hok
      simp only [] at hok
      cases hok
    · -- compilePairs cons, value error
      intro k v rest c c1 hok1 msg herr ih1 ih2 c' hok hw
      rw [compilePairs.eq_def] at hok
      simp only [] at hok
      rw [hok1] at hok
      simp only [] at hok
      rw [herr] at hok
      simp only [] at hok
      cases hok
    · -- compilePairs cons, ok
      intro k v rest c c1 hok1 c2 hok2 ih1 ih2 ih3 c' hok hw
      have g1 := ih1 c1 hok1 hw
      have g2 := ih2 c2 hok2 g1.1
      rw [compilePairs.eq_def] at hok
      simp only [] at hok
      rw [hok1] at hok
      simp only [] at hok
      rw [hok2] at hok
      simp only [] at hok
      exact gw_trans g1 (gw_trans g2 (ih3 c' hok g2.1))
  exact fun n c c' hok hw => H n c c' hok hw


/-- C3 counterexample: compiling `let f = fn() {}; f(7);` emits no code at
all for the argument `7` (the only constant is the function, and no
`OpConstant` for 7 appears) and the OpCall instruction's one-byte operand
(byte 10) is 0, not the argument count 1 — refuting the claimed
argument-compilation and operand. -/
theorem C3_callexpr_counterexample :
    (Compile c3prog Compiler.New).map
        (fun c => ((BytecodeOf c).Instructions, (BytecodeOf c).Constants)) =
      .ok ([code.OpConstant, 0, 0, code.OpSetGlobal, 0, 0,
            code.OpGetGlobal, 0, 0, code.OpCall, 0, code.OpPop],
           [Obj.compiledFunction ⟨[code.OpReturn], 0, 0⟩]) := rfl

/-- C3 (amended): the compiler of this snapshot ignores the arguments of a
call expression entirely: it compiles only the callee and emits OpCall with
no operand, which Make zero-fills to the single operand byte 0. -/
theorem C3_callexpr_amended :
    (∀ f args c, Compile (.callExpr f args) c =
      Compile (.callExpr f []) c) ∧
    (∀ f args c c1, Compile f c = .ok c1 →
      Compile (.callExpr f args) c = .ok (emit c1 code.OpCall []).2) ∧
    code.Make code.OpCall [] = [code.OpCall, 0] := by
  refine ⟨?_, ?_, rfl⟩
  · intro f args c
    conv_lhs => rw [Compile.eq_def]
    conv_rhs => rw [Compile.eq_def]
  · intro f args c c1 h
    rw [Compile.eq_def]
    simp only []
    rw [h]

/-- Witness for C3_callexpr_amended at the call `5(1, 2)`. -/
theorem C3_callexpr_amended_witness :
    Compile (.intLit 5) Compiler.New = .ok c3callee ∧
    Compile (.callExpr (.intLit 5) [.intLit 1, .intLit 2]) Compiler.New =
      .ok (emit c3callee code.OpCall []).2 :=
  ⟨rfl, C3_callexpr_amended.2.1 (.intLit 5) [.intLit 1, .intLit 2]
    Compiler.New c3callee rfl⟩

set_option maxRecDepth 10000 in
/-- C4 counterexample: compiling
`let countDown = fn(x) { countDown(x - 1); };` fails with
"undefined variable countDown", because the name is defined only after the
bound value has been compiled — refuting the claimed pre-definition. -/
theorem C4_letstmt_counterexample :
    Compile c4prog Compiler.New =
      .error ("undefined variable countDown") := rfl

/-- C4 (amended): a let statement compiles the bound value first and only
then defines the name (letTail), so an error in the value — in particular
an occurrence of the still-undefined bound name — aborts the compilation,
and an identifier missing from the symbol table yields
"undefined variable". -/
theorem C4_letstmt_amended :
    (∀ name value c msg, Compile value c = .error msg →
      Compile (.letStmt name value) c = .error msg) ∧
    (∀ name value c c1, Compile value c = .ok c1 →
      Compile (.letStmt name value) c = .ok (letTail name c1)) ∧
    (∀ c, sym.Resolve c.symbolTable "countDown" = none →
      Compile (.identExpr "countDown") c =
        .error ("undefined variable " ++ "countDown")) := by
  refine ⟨?_, ?_, ?_⟩
  · intro name value c msg h
    rw [Compile.eq_def]
    simp only []
    rw [h]
  · intro name value c c1 h
    rw [Compile.eq_def]
    simp only []
    rw [h]
  · intro c h
    rw [Compile.eq_def]
    simp only []
    unfold identArm
    rw [h]

/-- Witness for C4_letstmt_amended: a failing value propagates its error, a
successful value is followed by the definition, and an unresolved
identifier reports the undefined variable. -/
theorem C4_letstmt_amended_witness :
    Compile (.identExpr "nope") Compiler.New =
      .error ("undefined variable " ++ "nope") ∧
    Compile (.letStmt "x" (.identExpr "nope")) Compiler.New =
      .error ("undefined variable " ++ "nope") ∧
    Compile (.intLit 1) Compiler.New = .ok c4value ∧
    Compile (.letStmt "x" (.intLit 1)) Compiler.New =
      .ok (letTail "x" c4value) ∧
    sym.Resolve Compiler.New.symbolTable "countDown" = none ∧
    Compile (.identExpr "countDown") Compiler.New =
      .error ("undefined variable " ++ "countDown") :=
  ⟨rfl, C4_letstmt_amended.1 "x" (.identExpr "nope") Compiler.New _ rfl,
   rfl, C4_letstmt_amended.2.1 "x" (.intLit 1) Compiler.New c4value rfl,
   rfl, C4_letstmt_amended.2.2 Compiler.New rfl⟩

set_option maxRecDepth 10000 in
/-- C5: compiling an if expression with no else branch lays the code out as
condition, OpJumpNotTruthy patched to the offset A of the emitted OpNull
alternative, the (pop-stripped) consequence, OpJump patched to the first
byte B = A + 1 after the alternative, then OpNull; and the two quoted
programs evaluate to Null and Integer 10. -/
theorem C5_if_no_else :
    (∀ cond cons c c', WFc c →
      Compile (.ifExpr cond cons none) c = .ok c' →
      ∃ c1 dCond dCons A B,
        Compile cond c = .ok c1 ∧
        currentInstructions c1 = currentInstructions c ++ dCond ∧
        A = (currentInstructions c).length + dCond.length + 3 +
            dCons.length + 3 ∧
        B = A + 1 ∧
        currentInstructions c' =
          currentInstructions c ++ dCond ++
          (code.OpJumpNotTruthy :: code.enc 2 (A : Int)) ++ dCons ++
          (code.OpJump :: code.enc 2 (B : Int)) ++ [code.OpNull]) ∧
    runProgram 50 ifprog1 = .value Obj.null ∧
    runProgram 50 ifprog2 = .value (Obj.integer 10) := by
  refine ⟨?_, rfl, rfl⟩
  intro cond cons c c' hwf hok
  rcases h1 : Compile cond c with m | c1
  · exfalso
    rw [Compile.eq_def] at hok
    simp only [] at hok
    rw [h1] at hok
    simp only [] at hok
    cases hok
  · rcases h2 : Compile cons (emit c1 code.OpJumpNotTruthy [0]).2
        with m | c2x
    · exfalso
      rw [Compile.eq_def] at hok
      simp only [] at hok
      rw [h1] at hok
      simp only [] at hok
      rw [h2] at hok
      simp only [] at hok
      cases hok
    · have g1 := compile_grows cond c c1 h1 hwf
      have hE := grows_emit c1 code.OpJumpNotTruthy [0] g1.1
      have g2 := compile_grows cons _ c2x h2 hE.1
      obtain ⟨dCond, dCons, A, B, hd, hA, hB, hshape⟩ :=
        (ifnone_layout cond cons c c1 c2x hwf h1 h2 g1
          ⟨g2.1, g2.2⟩ c' hok).2.2
      exact ⟨c1, dCond, dCons, A, B, rfl, hd, hA, hB, hshape⟩

/-- Witness for C5_if_no_else at `if (false) { 10 }` from a fresh
compiler. -/
theorem C5_if_no_else_witness :
    WFc Compiler.New ∧
    Compile (.ifExpr (.boolLit false) (.blockStmt [.exprStmt (.intLit 10)])
      none) Compiler.New = .ok c5compiled ∧
    ∃ c1 dCond dCons A B,
      Compile (.boolLit false) Compiler.New = .ok c1 ∧
      currentInstructions c1 = currentInstructions Compiler.New ++ dCond ∧
      A = (currentInstructions Compiler.New).length + dCond.length + 3 +
          dCons.length + 3 ∧
      B = A + 1 ∧
      currentInstructions c5compiled =
        currentInstructions Compiler.New ++ dCond ++
        (code.OpJumpNotTruthy :: code.enc 2 (A : Int)) ++ dCons ++
        (code.OpJump :: code.enc 2 (B : Int)) ++ [code.OpNull] :=
  ⟨rfl, rfl, C5_if_no_else.1 (.boolLit false)
    (.blockStmt [.exprStmt (.intLit 10)]) Compiler.New c5compiled rfl rfl⟩

set_option maxRecDepth 100000 in
set_option maxHeartbeats 4000000 in
/-- C6: `a < b` compiles exactly as `b > a` (operand swap, OpGreaterThan,
no less-than opcode), the emitted layout is b's code then a's code then
OpGreaterThan, and for all integer operands the program `x < y;` evaluates
to the Boolean of x < y — observably a direct less-than. -/
theorem C6_less_than_swap :
    (∀ a b c0, Compile (.infixExpr "<" a b) c0 =
      Compile (.infixExpr ">" b a) c0) ∧
    (∀ a b c0 c', WFc c0 → Compile (.infixExpr "<" a b) c0 = .ok c' →
      ∃ c1 c2 dB dA, Compile b c0 = .ok c1 ∧ Compile a c1 = .ok c2 ∧
        currentInstructions c1 = currentInstructions c0 ++ dB ∧
        currentInstructions c2 = currentInstructions c0 ++ dB ++ dA ∧
        currentInstructions c' = currentInstructions c0 ++ dB ++ dA ++
          [code.OpGreaterThan]) ∧
    (∀ x y : Int, runProgram 50 (.program [.exprStmt
      (.infixExpr "<" (.intLit x) (.intLit y))]) =
      .value (Obj.boolean (decide (x < y)))) := by
  have hne : ¬(">" : String) = "<" := by decide
  refine ⟨?_, ?_, ?_⟩
  · intro a b c0
    conv_lhs => rw [Compile.eq_def]
    conv_rhs => rw [Compile.eq_def]
    simp only [eq_self_iff_true, if_true]
    rw [if_neg hne]
    rcases hb : Compile b c0 with m | c1
    · simp only [hb]
    · simp only [hb]
      rcases ha : Compile a c1 with m | c2
      · simp only [ha]
      · simp only [ha]
        rfl
  · intro a b c0 c' hwf hok
    rw [Compile.eq_def] at hok
    simp only [eq_self_iff_true, if_true] at hok
    rcases hb : Compile b c0 with m | c1
    · exfalso
      rw [hb] at hok
      simp only [] at hok
      cases hok
    · rw [hb] at hok
      simp only [] at hok
      rcases ha : Compile a c1 with m | c2
      · exfalso
        rw [ha] at hok
        simp only [] at hok
        cases hok
      · rw [ha] at hok
        simp only [Except.ok.injEq] at hok
        subst hok
        have g1 := compile_grows b c0 c1 hb hwf
        have g2 := compile_grows a c1 c2 ha g1.1
        obtain ⟨dB, hdB⟩ := g1.2.2.2.2.1
        obtain ⟨dA, hdA⟩ := g2.2.2.2.2.1
        refine ⟨c1, c2, dB, dA, rfl, ha, hdB, ?_, ?_⟩
        · rw [hdA, hdB, List.append_assoc]
        · rw [currentInstructions_emit _ _ _ (WFc_lt g2.1), hdA, hdB]
          simp [List.append_assoc]
          rfl
  · intro x y
    have hc : Compile (.program [.exprStmt
        (.infixExpr "<" (.intLit x) (.intLit y))]) Compiler.New =
        .ok ⟨[Obj.integer y, Obj.integer x], sym.NewSymbolTable,
          [⟨[code.OpConstant, 0, 0, code.OpConstant, 0, 1,
             code.OpGreaterThan, code.OpPop],
            ⟨code.OpPop, 7⟩, ⟨code.OpGreaterThan, 6⟩⟩], 0⟩ := by
      simp [Compile, compileList, emit, addConstant, addInstruction,
        setLastInstruction, setCurrentScope, currentScope,
        currentInstructions, Compiler.New, emptyScope, code.Make,
        code.operandWidths, code.fill, code.enc, code.OpConstant,
        code.OpGreaterThan, code.OpPop, sym.NewSymbolTable]
    rw [runProgram, hc]
    rfl

/-- Witness for C6_less_than_swap at `3 < 7` from a fresh compiler. -/
theorem C6_less_than_swap_witness :
    WFc Compiler.New ∧
    Compile (.infixExpr "<" (.intLit 3) (.intLit 7)) Compiler.New =
      .ok c6compiled ∧
    ∃ c1 c2 dB dA,
      Compile (.intLit 7) Compiler.New = .ok c1 ∧
      Compile (.intLit 3) c1 = .ok c2 ∧
      currentInstructions c1 = currentInstructions Compiler.New ++ dB ∧
      currentInstructions c2 =
        currentInstructions Compiler.New ++ dB ++ dA ∧
      currentInstructions c6compiled =
        currentInstructions Compiler.New ++ dB ++ dA ++
          [code.OpGreaterThan] :=
  ⟨rfl, rfl, C6_less_than_swap.2.1 (.intLit 3) (.intLit 7) Compiler.New
    c6compiled rfl rfl⟩

/-- C8: resolving through an outer table promotes Local/Free results to
free variables of the current table — the original symbol is appended to
FreeSymbols, a Free-scoped shadow with index equal to its position is
stored and returned — while Global/Builtin results pass through unchanged,
and a subsequent resolution returns the Free shadow directly. -/
theorem C8_resolve_free_promotion :
    ∀ st n free name outer obj o2,
      lookupStore st name = none →
      freesym.Resolve outer name = (some obj, o2) →
      ((obj.Scope = GlobalScope ∨ obj.Scope = BuiltinScope) →
        freesym.Resolve (.mk st n (some outer) free) name =
          (some obj, .mk st n (some o2) free)) ∧
      (¬(obj.Scope = GlobalScope ∨ obj.Scope = BuiltinScope) →
        freesym.Resolve (.mk st n (some outer) free) name =
          (some (⟨obj.Name, FreeScope, free.length⟩ : Symbol),
           .mk ((obj.Name, (⟨obj.Name, FreeScope, free.length⟩ : Symbol))
             :: st) n (some o2) (free ++ [obj])) ∧
        (obj.Name = name →
          (freesym.Resolve (.mk ((obj.Name,
            (⟨obj.Name, FreeScope, free.length⟩ : Symbol)) :: st) n
            (some o2) (free ++ [obj])) name).1 =
            some (⟨obj.Name, FreeScope, free.length⟩ : Symbol))) := by
  intro st n free name outer obj o2 hlook hres
  have hlen : (free ++ [obj]).length - 1 = free.length := by simp
  refine ⟨?_, ?_⟩
  · intro hscope
    rw [freesym.Resolve.eq_def]
    simp only []
    rw [hlook]
    simp only []
    rw [hres]
    simp only [freesym.resolveOuter]
    rw [if_pos hscope]
  · intro hscope
    refine ⟨?_, ?_⟩
    · rw [freesym.Resolve.eq_def]
      simp only []
      rw [hlook]
      simp only []
      rw [hres]
      simp only [freesym.resolveOuter]
      rw [if_neg hscope]
      simp only [freesym.defineFree, hlen]
    · intro hname
      rw [freesym.Resolve.eq_def]
      simp only [lookupStore]
      rw [if_pos hname]

/-- Witness for C8_resolve_free_promotion: a two-level table where the
outer defines "a" as a local; resolving "a" in the inner table promotes it
to a free variable with index 0 and a second resolution returns the Free
shadow. -/
theorem C8_resolve_free_promotion_witness :
    lookupStore ([] : List (String × Symbol)) "a" = none ∧
    freesym.Resolve c8outer "a" =
      (some ⟨"a", LocalScope, 0⟩, c8outer) ∧
    ¬((⟨"a", LocalScope, 0⟩ : Symbol).Scope = GlobalScope ∨
      (⟨"a", LocalScope, 0⟩ : Symbol).Scope = BuiltinScope) ∧
    (freesym.Resolve (.mk [] 0 (some c8outer) []) "a" =
      (some ((⟨"a", FreeScope, 0⟩ : Symbol)),
       .mk [("a", (⟨"a", FreeScope, 0⟩ : Symbol))] 0 (some c8outer)
         [⟨"a", LocalScope, 0⟩]) ∧
     ((⟨"a", LocalScope, 0⟩ : Symbol).Name = "a" →
       (freesym.Resolve (.mk [("a", (⟨"a", FreeScope, 0⟩ : Symbol))] 0
         (some c8outer) [⟨"a", LocalScope, 0⟩]) "a").1 =
         some (⟨"a", FreeScope, 0⟩ : Symbol))) :=
  ⟨rfl, rfl, by decide,
   (C8_resolve_free_promotion [] 0 [] "a" c8outer ⟨"a", LocalScope, 0⟩
     c8outer rfl rfl).2 (by decide)⟩

end toy
